import Mathlib

/-!
# pomotui: the phase state machine and its handlers

A shallow embedding of `model/model.go` and `model/actions.go`.

* Go's `int` is a 64-bit two's-complement integer.  Fields of type `int` are
  modelled as `Int`; the three operations that can leave the 64-bit range
  (`totalSessions++`, `CurrentWorkSession += 1` and the `time.Duration`
  multiplication) wrap explicitly through `wrapInt64`.  The guarded cursor
  updates `cursor--` (under `cursor > 0`) and `cursor++` (under
  `cursor < len(choices)-1`) cannot overflow.
* `log.Fatal` and `panic` end the program: handlers that can reach them return
  `Except Fault _`.
* The byte store is external: `HandleTimerTimeout` returns the list of writes it
  issues next to its result, and `getTotalSessions` and `New` take the store's read
  function as an argument.  `db.Sync()` is not modelled.
* `log.Print` output, the help model and the paginator are not modelled; no
  handler reads them.
-/

namespace Pomotui

/-! ## Machine integers and the standard library -/

/-- Smallest value of Go's 64-bit `int`. -/
def minInt64 : Int := -9223372036854775808

/-- Largest value of Go's 64-bit `int`. -/
def maxInt64 : Int := 9223372036854775807

/-- Two's-complement wrap-around of an integer into the range of Go's 64-bit `int`. -/
def wrapInt64 (x : Int) : Int :=
  (x + 9223372036854775808) % 18446744073709551616 - 9223372036854775808

/-- Value of a decimal digit character, `none` for any other character. -/
def digitValue (c : Char) : Option Nat :=
  if 48 ≤ c.toNat ∧ c.toNat ≤ 57 then some (c.toNat - 48) else none

/-- Accumulating loop of `strconv.Atoi` over the characters after the sign. -/
def parseDigitsAux : List Char → Nat → Option Nat
  | [], acc => some acc
  | c :: cs, acc =>
    match digitValue c with
    | some d => parseDigitsAux cs (acc * 10 + d)
    | none => none

/-- Parses a non-empty run of decimal digits. -/
def parseDigits (cs : List Char) : Option Nat :=
  match cs with
  | [] => none
  | _ :: _ => parseDigitsAux cs 0

/-- Go's `strconv.Atoi`: an optional sign followed by at least one decimal digit,
with a value inside the 64-bit range; `none` stands for the returned error. -/
def Atoi (s : String) : Option Int :=
  match s.data with
  | [] => none
  | c :: cs =>
    if c = '-' then
      match parseDigits cs with
      | some n => if (n : Int) ≤ 9223372036854775808 then some (-(n : Int)) else none
      | none => none
    else if c = '+' then
      match parseDigits cs with
      | some n => if (n : Int) ≤ maxInt64 then some (n : Int) else none
      | none => none
    else
      match parseDigits (c :: cs) with
      | some n => if (n : Int) ≤ maxInt64 then some (n : Int) else none
      | none => none

/-- The integer `strconv.Atoi` hands back next to an error: the nearest bound of the
64-bit range for digits whose value is out of range, 0 for a syntax error. -/
def AtoiErrValue (s : String) : Int :=
  match s.data with
  | [] => 0
  | c :: cs =>
    if c = '-' then
      match parseDigits cs with
      | some _ => minInt64
      | none => 0
    else if c = '+' then
      match parseDigits cs with
      | some _ => maxInt64
      | none => 0
    else
      match parseDigits (c :: cs) with
      | some _ => maxInt64
      | none => 0

/-- Go's `fmt.Sprintf("%d", n)`: the decimal string of an integer. -/
def SprintfD (n : Int) : String :=
  if n < 0 then "-" ++ Nat.repr n.natAbs else Nat.repr n.natAbs

/-- A calendar date as read from `time.Now()`. -/
structure Date where
  year : Nat
  month : Nat
  day : Nat
  deriving DecidableEq, Repr

/-- Decimal string of `n`, padded with zeros on the left to at least `width` characters. -/
def zeroPad (width n : Nat) : String :=
  String.mk (List.replicate (width - (Nat.repr n).length) '0') ++ Nat.repr n

/-- The layout `ISOFormat = "2006-01-02"` applied to a date: `YYYY-MM-DD`. -/
def formatISO (d : Date) : String :=
  zeroPad 4 d.year ++ "-" ++ zeroPad 2 d.month ++ "-" ++ zeroPad 2 d.day

/-- Nanoseconds in `time.Second`. -/
def Second : Int := 1000000000

/-- Nanoseconds in `time.Minute`. -/
def Minute : Int := 60000000000

/-- The fields of the `bubbles/timer` model: durations are in nanoseconds. -/
structure Timer where
  Timeout : Int
  Interval : Int
  running : Bool
  deriving DecidableEq, Repr

/-- The library constructor `timer.NewWithInterval`: a running timer with the given
timeout and tick interval. -/
def NewWithInterval (timeout interval : Int) : Timer :=
  { Timeout := timeout, Interval := interval, running := true }

/-- The commands handlers hand back to the runtime. -/
inductive Cmd where
  | nil
  | quit
  | timerInit (t : Timer)
  | timerToggle (t : Timer)
  deriving DecidableEq, Repr

/-- The two ways a handler ends the program. -/
inductive Fault where
  | fatal (msg : String)
  | panic (msg : String)
  deriving DecidableEq, Repr

/-! ## Data model (`model/model.go`) -/

/-- Modelled from the spec: the package `state`, whose source is not part of the
files at hand, declares the seven phase constants the handlers switch on. -/
inductive State where
  | ChooseWorkingDuration
  | ChooseBreakDuration
  | ChooseLongBreakDuration
  | ChooseSessionCount
  | Working
  | Break
  | LongBreak
  deriving DecidableEq, Repr

structure ChoiceModel where
  choices : List String
  cursor : Int
  selected : String
  deriving DecidableEq, Repr

def NewChoiceModel (choices : List String) : ChoiceModel :=
  { choices := choices, cursor := 0, selected := "" }

/-- The enabled flag of each key binding of `KeyMap`. -/
structure KeyMap where
  Start : Bool
  Stop : Bool
  Up : Bool
  Down : Bool
  Enter : Bool
  Init : Bool
  Confirm : Bool
  Reset : Bool
  Quit : Bool
  deriving DecidableEq, Repr

def NewKeyMap : KeyMap :=
  { Start := false, Stop := false, Up := true, Down := true, Enter := true,
    Init := true, Confirm := true, Reset := false, Quit := true }

structure Model where
  KeyMap : KeyMap
  WorkingDuration : ChoiceModel
  BreakDuration : ChoiceModel
  LongBreakDuration : ChoiceModel
  SessionCount : ChoiceModel
  totalSessions : Int
  State : Pomotui.State
  CurrentWorkSession : Int
  Timer : Timer
  TimerInitialized : Bool
  deriving DecidableEq, Repr

/-- The model literal built at the start of `New`, with the day's count already
loaded into `totalSessions`. -/
def initialModel (totalSessions : Int) : Model :=
  { KeyMap := NewKeyMap
    WorkingDuration := NewChoiceModel ["1", "15", "20", "25", "30", "45", "50", "60", "90"]
    BreakDuration := NewChoiceModel ["1", "5", "7", "10"]
    LongBreakDuration := NewChoiceModel ["15", "20", "25", "30"]
    SessionCount := NewChoiceModel ["4", "5", "6", "7"]
    totalSessions := totalSessions
    State := State.ChooseWorkingDuration
    CurrentWorkSession := 0
    Timer := { Timeout := 0, Interval := 0, running := false }
    TimerInitialized := false }

/-- The method `calculateCurrentWorkSession`: stores `totalSessions % sessionCount`
(Go's truncated remainder) in `CurrentWorkSession` and returns `sessionCount`. -/
def calculateCurrentWorkSession (m : Model) : Except Fault (Model × Int) :=
  match Atoi m.SessionCount.selected with
  | none => .error (.fatal "unable to convert session count selection to int")
  | some sessionCount =>
    if sessionCount = 0 then .error (.panic "runtime error: integer divide by zero")
    else .ok ({ m with CurrentWorkSession := Int.tmod m.totalSessions sessionCount }, sessionCount)

/-- The method `getTotalSessions`.  The store is the function `db` from a key to the
result of `db.Get`: an error, or the bytes found (`none` for nil bytes).  Returns the
model it leaves behind and the error it returns, `none` for a nil error; of a wrapped
`strconv.Atoi` error only the message added by `errors.Wrap` is kept. -/
def getTotalSessions (db : String → Except String (Option String)) (now : Date) (m : Model) :
    Model × Option String :=
  match db (formatISO now) with
  | .error e =>
    ({ m with totalSessions := 0 }, some ("unable to get value from DB: " ++ e))
  | .ok byteOfSessions =>
    match byteOfSessions with
    | some bytes =>
      match Atoi bytes with
      | some n => ({ m with totalSessions := n }, none)
      | none =>
        ({ m with totalSessions := AtoiErrValue bytes },
          some "unable to convert sessions from DB to int")
    | none => (m, none)

/-- The constructor `New`.  `openErr` is the error of `kv.OpenWithDefaults`, if any; the
other arguments are those of `getTotalSessions`. -/
def New (openErr : Option String) (db : String → Except String (Option String)) (now : Date) :
    Except Fault Model :=
  let m := initialModel 0
  match openErr with
  | some e => .error (.panic e)
  | none =>
    match getTotalSessions db now m with
    | (_, some e) => .error (.fatal e)
    | (m, none) => .ok m

def HasSelectedWorkingDuration (m : Model) : Bool :=
  m.WorkingDuration.selected != ""

def HasSelectedBreakDuration (m : Model) : Bool :=
  m.BreakDuration.selected != ""

def HasSelectLongBreakDuration (m : Model) : Bool :=
  m.BreakDuration.selected != ""

def HasSelectedSessionCount (m : Model) : Bool :=
  m.SessionCount.selected != ""

def CurrentCursor (m : Model) : Int :=
  match m.State with
  | .ChooseWorkingDuration => m.WorkingDuration.cursor
  | .ChooseBreakDuration => m.BreakDuration.cursor
  | .ChooseLongBreakDuration => m.LongBreakDuration.cursor
  | .ChooseSessionCount => m.SessionCount.cursor
  | _ => 0

def CurrentSelectedChoice (m : Model) : String :=
  match m.State with
  | .ChooseWorkingDuration => m.WorkingDuration.selected
  | .ChooseBreakDuration => m.BreakDuration.selected
  | .ChooseLongBreakDuration => m.LongBreakDuration.selected
  | .ChooseSessionCount => m.SessionCount.selected
  | _ => ""

def CurrentChoices (m : Model) : List String :=
  match m.State with
  | .ChooseWorkingDuration => m.WorkingDuration.choices
  | .ChooseBreakDuration => m.BreakDuration.choices
  | .ChooseLongBreakDuration => m.LongBreakDuration.choices
  | .ChooseSessionCount => m.SessionCount.choices
  | _ => []

/-- A Go slice index expression `choices[i]`: a run-time panic when `i` is out of range. -/
def index (choices : List String) (i : Int) : Except Fault String :=
  if 0 ≤ i ∧ i < (choices.length : Int) then
    match choices.get? i.toNat with
    | some c => .ok c
    | none => .error (.panic "runtime error: index out of range")
  else .error (.panic "runtime error: index out of range")

/-! ## Handlers (`model/actions.go`) -/

def HandleQuit (m : Model) : Model × Cmd :=
  (m, Cmd.quit)

def HandleStartStop (m : Model) : Model × Cmd :=
  if !m.TimerInitialized then
    let m := { m with TimerInitialized := true }
    let m := { m with KeyMap := { m.KeyMap with Stop := true } }
    let m := { m with KeyMap := { m.KeyMap with Start := false } }
    (m, Cmd.timerInit m.Timer)
  else (m, Cmd.timerToggle m.Timer)

def HandleUp (m : Model) : Model × Cmd :=
  match m.State with
  | .ChooseWorkingDuration =>
    if m.WorkingDuration.cursor > 0 then
      ({ m with WorkingDuration := { m.WorkingDuration with cursor := m.WorkingDuration.cursor - 1 } },
        Cmd.nil)
    else (m, Cmd.nil)
  | .ChooseBreakDuration =>
    if m.BreakDuration.cursor > 0 then
      ({ m with BreakDuration := { m.BreakDuration with cursor := m.BreakDuration.cursor - 1 } },
        Cmd.nil)
    else (m, Cmd.nil)
  | .ChooseLongBreakDuration =>
    if m.LongBreakDuration.cursor > 0 then
      ({ m with LongBreakDuration :=
          { m.LongBreakDuration with cursor := m.LongBreakDuration.cursor - 1 } }, Cmd.nil)
    else (m, Cmd.nil)
  | .ChooseSessionCount =>
    if m.SessionCount.cursor > 0 then
      ({ m with SessionCount := { m.SessionCount with cursor := m.SessionCount.cursor - 1 } },
        Cmd.nil)
    else (m, Cmd.nil)
  | _ => (m, Cmd.nil)

def HandleDown (m : Model) : Model × Cmd :=
  match m.State with
  | .ChooseWorkingDuration =>
    if m.WorkingDuration.cursor < (m.WorkingDuration.choices.length : Int) - 1 then
      ({ m with WorkingDuration := { m.WorkingDuration with cursor := m.WorkingDuration.cursor + 1 } },
        Cmd.nil)
    else (m, Cmd.nil)
  | .ChooseBreakDuration =>
    if m.BreakDuration.cursor < (m.BreakDuration.choices.length : Int) - 1 then
      ({ m with BreakDuration := { m.BreakDuration with cursor := m.BreakDuration.cursor + 1 } },
        Cmd.nil)
    else (m, Cmd.nil)
  | .ChooseLongBreakDuration =>
    if m.LongBreakDuration.cursor < (m.LongBreakDuration.choices.length : Int) - 1 then
      ({ m with LongBreakDuration :=
          { m.LongBreakDuration with cursor := m.LongBreakDuration.cursor + 1 } }, Cmd.nil)
    else (m, Cmd.nil)
  | .ChooseSessionCount =>
    if m.SessionCount.cursor < (m.SessionCount.choices.length : Int) - 1 then
      ({ m with SessionCount := { m.SessionCount with cursor := m.SessionCount.cursor + 1 } },
        Cmd.nil)
    else (m, Cmd.nil)
  | _ => (m, Cmd.nil)

/-- The three `SetEnabled(false)` calls that open the first three cases of `HandleConfirm`. -/
def disableTimerKeys (m : Model) : Model :=
  { m with KeyMap := { m.KeyMap with Start := false, Stop := false, Reset := false } }

def HandleConfirm (m : Model) : Except Fault (Model × Cmd) :=
  match m.State with
  | .ChooseWorkingDuration =>
    let m := disableTimerKeys m
    if !HasSelectedWorkingDuration m then .ok (m, Cmd.nil)
    else .ok ({ m with State := State.ChooseBreakDuration }, Cmd.nil)
  | .ChooseBreakDuration =>
    let m := disableTimerKeys m
    if !HasSelectedBreakDuration m then .ok (m, Cmd.nil)
    else .ok ({ m with State := State.ChooseLongBreakDuration }, Cmd.nil)
  | .ChooseLongBreakDuration =>
    let m := disableTimerKeys m
    if !HasSelectLongBreakDuration m then .ok (m, Cmd.nil)
    else .ok ({ m with State := State.ChooseSessionCount }, Cmd.nil)
  | .ChooseSessionCount =>
    if !HasSelectedSessionCount m then .ok (m, Cmd.nil)
    else
      match calculateCurrentWorkSession m with
      | .error f => .error f
      | .ok (m, _) =>
        let m := { m with State := State.Working }
        match Atoi m.WorkingDuration.selected with
        | none => .error (.panic "Failed to convert working duration time to int")
        | some selectedTime =>
          let amountOfTime := wrapInt64 (selectedTime * Minute)
          let m := { m with Timer := NewWithInterval amountOfTime Second }
          let m := { m with KeyMap := { m.KeyMap with Start := true, Stop := true, Up := false,
                                                      Down := false, Enter := false,
                                                      Confirm := false } }
          .ok (m, Cmd.nil)
  | _ => .ok (m, Cmd.nil)

def HandleEnter (m : Model) : Except Fault (Model × Cmd) :=
  match m.State with
  | .ChooseWorkingDuration =>
    if m.WorkingDuration.selected = "" then
      match index m.WorkingDuration.choices m.WorkingDuration.cursor with
      | .error f => .error f
      | .ok c => .ok ({ m with WorkingDuration := { m.WorkingDuration with selected := c } }, Cmd.nil)
    else
      match index m.WorkingDuration.choices m.WorkingDuration.cursor with
      | .error f => .error f
      | .ok c =>
        if c ≠ m.WorkingDuration.selected then
          .ok ({ m with WorkingDuration := { m.WorkingDuration with selected := c } }, Cmd.nil)
        else
          .ok ({ m with WorkingDuration := { m.WorkingDuration with selected := "" } }, Cmd.nil)
  | .ChooseBreakDuration =>
    if m.BreakDuration.selected = "" then
      match index m.BreakDuration.choices m.BreakDuration.cursor with
      | .error f => .error f
      | .ok c => .ok ({ m with BreakDuration := { m.BreakDuration with selected := c } }, Cmd.nil)
    else
      match index m.BreakDuration.choices m.BreakDuration.cursor with
      | .error f => .error f
      | .ok c =>
        if c ≠ m.BreakDuration.selected then
          .ok ({ m with BreakDuration := { m.BreakDuration with selected := c } }, Cmd.nil)
        else
          .ok ({ m with BreakDuration := { m.BreakDuration with selected := "" } }, Cmd.nil)
  | .ChooseLongBreakDuration =>
    if m.LongBreakDuration.selected = "" then
      match index m.LongBreakDuration.choices m.LongBreakDuration.cursor with
      | .error f => .error f
      | .ok c =>
        .ok ({ m with LongBreakDuration := { m.LongBreakDuration with selected := c } }, Cmd.nil)
    else
      match index m.LongBreakDuration.choices m.LongBreakDuration.cursor with
      | .error f => .error f
      | .ok c =>
        if c ≠ m.LongBreakDuration.selected then
          .ok ({ m with LongBreakDuration := { m.LongBreakDuration with selected := c } }, Cmd.nil)
        else
          .ok ({ m with LongBreakDuration := { m.LongBreakDuration with selected := "" } }, Cmd.nil)
  | .ChooseSessionCount =>
    if m.SessionCount.selected = "" then
      match index m.SessionCount.choices m.SessionCount.cursor with
      | .error f => .error f
      | .ok c => .ok ({ m with SessionCount := { m.SessionCount with selected := c } }, Cmd.nil)
    else
      match index m.SessionCount.choices m.SessionCount.cursor with
      | .error f => .error f
      | .ok c =>
        -- the assignment inside this `if` is not followed by a `return`
        let m := if c ≠ m.SessionCount.selected then
            { m with SessionCount := { m.SessionCount with selected := c } }
          else m
        .ok ({ m with SessionCount := { m.SessionCount with selected := "" } }, Cmd.nil)
  | _ => .ok (m, Cmd.nil)

/-- What `HandleTimerTimeout` leaves behind: the store writes it issued, in order, as
(key, value) pairs, and the returned model and command or the fault that ended it. -/
structure Outcome where
  writes : List (String × String)
  result : Except Fault (Model × Cmd)

/-- The handler of the timer-expiry message; `now` is the reading of `time.Now()`
taken for the store key. -/
def HandleTimerTimeout (now : Date) (m : Model) : Outcome :=
  match calculateCurrentWorkSession m with
  | .error f => { writes := [], result := .error f }
  | .ok (m, sessionCount) =>
    let m := { m with totalSessions := wrapInt64 (m.totalSessions + 1) }
    let writes := [(formatISO now, SprintfD m.totalSessions)]
    if m.State = State.Working ∧ m.CurrentWorkSession = sessionCount then
      match Atoi m.LongBreakDuration.selected with
      | none =>
        { writes := writes
          result := .error (.panic "Failed to convert long break duration time to int") }
      | some breakTimeInt =>
        let breakTime := wrapInt64 (breakTimeInt * Minute)
        let m := { m with Timer := NewWithInterval breakTime Second, TimerInitialized := false }
        let m := { m with KeyMap := { m.KeyMap with Stop := false, Start := true } }
        let m := { m with CurrentWorkSession := 0, State := State.LongBreak }
        { writes := writes, result := .ok (m, Cmd.nil) }
    else if m.State = State.Working then
      match Atoi m.BreakDuration.selected with
      | none =>
        { writes := writes
          result := .error (.panic "Failed to convert break duration time to int") }
      | some breakTimeInt =>
        let breakTime := wrapInt64 (breakTimeInt * Minute)
        let m := { m with Timer := NewWithInterval breakTime Second, TimerInitialized := false }
        let m := { m with KeyMap := { m.KeyMap with Stop := false, Start := true } }
        let m := { m with State := State.Break }
        { writes := writes, result := .ok (m, Cmd.nil) }
    else if m.State = State.Break then
      match Atoi m.WorkingDuration.selected with
      | none =>
        { writes := writes
          result := .error (.panic "Failed to convert work duration time to int") }
      | some workTimeInt =>
        let workTime := wrapInt64 (workTimeInt * Minute)
        let m := { m with Timer := NewWithInterval workTime Second, TimerInitialized := false }
        let m := { m with KeyMap := { m.KeyMap with Stop := false, Start := true } }
        let m := { m with CurrentWorkSession := wrapInt64 (m.CurrentWorkSession + 1),
                          State := State.Working }
        { writes := writes, result := .ok (m, Cmd.nil) }
    else if m.State = State.LongBreak then
      match Atoi m.WorkingDuration.selected with
      | none =>
        { writes := writes
          result := .error (.panic "Failed to convert working duration time to int") }
      | some workTimeInt =>
        let workTime := wrapInt64 (workTimeInt * Minute)
        let m := { m with Timer := NewWithInterval workTime Second, TimerInitialized := false }
        let m := { m with KeyMap := { m.KeyMap with Stop := false, Start := true } }
        let m := { m with CurrentWorkSession := 1, State := State.Working }
        { writes := writes, result := .ok (m, Cmd.nil) }
    else { writes := writes, result := .ok (m, Cmd.nil) }

/-! ## Event sequences -/

/-- The events the handlers answer to; a timer expiry carries the clock reading
used for the store key. -/
inductive Event where
  | Up
  | Down
  | Enter
  | Confirm
  | StartStop
  | TimerTimeout (now : Date)
  deriving DecidableEq, Repr

/-- One handler call on the model; `none` when the handler ends the program. -/
def step (e : Event) (m : Model) : Option Model :=
  match e with
  | .Up => some (HandleUp m).1
  | .Down => some (HandleDown m).1
  | .StartStop => some (HandleStartStop m).1
  | .Enter =>
    match HandleEnter m with
    | .ok (m, _) => some m
    | .error _ => none
  | .Confirm =>
    match HandleConfirm m with
    | .ok (m, _) => some m
    | .error _ => none
  | .TimerTimeout now =>
    match (HandleTimerTimeout now m).result with
    | .ok (m, _) => some m
    | .error _ => none

/-- The handlers applied to a sequence of events, first event first. -/
def run : List Event → Model → Option Model
  | [], m => some m
  | e :: es, m =>
    match step e m with
    | some m => run es m
    | none => none

/-- The configuration of the full-cycle scenario in `ChooseSessionCount`, before the
last Confirm: selections "25", "5", "15", "4" and no session completed today. -/
def scenarioSetup : Model :=
  { initialModel 0 with
    WorkingDuration := { (initialModel 0).WorkingDuration with cursor := 3, selected := "25" }
    BreakDuration := { (initialModel 0).BreakDuration with cursor := 1, selected := "5" }
    LongBreakDuration := { (initialModel 0).LongBreakDuration with selected := "15" }
    SessionCount := { (initialModel 0).SessionCount with selected := "4" }
    State := State.ChooseSessionCount }

/-- The phase and session index after Confirm and then `k` timer expiries in the
full-cycle scenario. -/
def scenarioAfter (now : Date) (k : Nat) : Option (State × Int) :=
  (run (Event.Confirm :: List.replicate k (Event.TimerTimeout now)) scenarioSetup).map
    fun m => (m.State, m.CurrentWorkSession)

/-- The scenario in its first work session: what Confirm makes of `scenarioSetup`. -/
def scenarioWorking : Model :=
  { scenarioSetup with
    State := State.Working
    Timer := NewWithInterval 1500000000000 Second
    KeyMap := { NewKeyMap with Start := true, Stop := true, Up := false, Down := false,
                               Enter := false, Confirm := false } }

/-- The scenario in its first short break: what the first expiry makes of
`scenarioWorking`. -/
def scenarioBreak : Model :=
  { scenarioWorking with
    State := State.Break
    totalSessions := 1
    Timer := NewWithInterval 300000000000 Second
    KeyMap := { scenarioWorking.KeyMap with Stop := false, Start := true } }

/-- A model in `ChooseLongBreakDuration` reached with Enter/Confirm from the initial
model: a working and a break duration are selected, no long-break duration is. -/
def longBreakUnselected : Model :=
  { initialModel 0 with
    WorkingDuration := { (initialModel 0).WorkingDuration with selected := "1" }
    BreakDuration := { (initialModel 0).BreakDuration with selected := "1" }
    State := State.ChooseLongBreakDuration }

/-- A model in `ChooseSessionCount` with "4" selected and the cursor on "5". -/
def sessionCountOnFive : Model :=
  { scenarioSetup with SessionCount := { scenarioSetup.SessionCount with cursor := 1 } }

/-! ## Predicates used by the invariants -/

/-- The four configuration phases. -/
def IsChoosePhase (s : State) : Prop :=
  s = State.ChooseWorkingDuration ∨ s = State.ChooseBreakDuration ∨
  s = State.ChooseLongBreakDuration ∨ s = State.ChooseSessionCount

instance (s : State) : Decidable (IsChoosePhase s) := by
  unfold IsChoosePhase; infer_instance

/-- The cursor of a ChoiceModel is a valid index: `0 ≤ cursor < len(choices)`. -/
def CursorInBounds (c : ChoiceModel) : Prop :=
  0 ≤ c.cursor ∧ c.cursor < (c.choices.length : Int)

instance (c : ChoiceModel) : Decidable (CursorInBounds c) := by
  unfold CursorInBounds; infer_instance

/-- Every ChoiceModel of the model has its cursor in bounds. -/
def AllCursorsInBounds (m : Model) : Prop :=
  CursorInBounds m.WorkingDuration ∧ CursorInBounds m.BreakDuration ∧
  CursorInBounds m.LongBreakDuration ∧ CursorInBounds m.SessionCount

instance (m : Model) : Decidable (AllCursorsInBounds m) := by
  unfold AllCursorsInBounds; infer_instance

/-- The selection of a ChoiceModel is empty or one of its choices. -/
def SelectedIsChoice (c : ChoiceModel) : Prop :=
  c.selected = "" ∨ c.selected ∈ c.choices

instance (c : ChoiceModel) : Decidable (SelectedIsChoice c) := by
  unfold SelectedIsChoice; infer_instance

/-- Every ChoiceModel of the model has an empty selection or one among its choices. -/
def AllSelectedAreChoices (m : Model) : Prop :=
  SelectedIsChoice m.WorkingDuration ∧ SelectedIsChoice m.BreakDuration ∧
  SelectedIsChoice m.LongBreakDuration ∧ SelectedIsChoice m.SessionCount

instance (m : Model) : Decidable (AllSelectedAreChoices m) := by
  unfold AllSelectedAreChoices; infer_instance

/-- The four choices lists of `m1` are those of `m`. -/
def SameChoices (m m1 : Model) : Prop :=
  m1.WorkingDuration.choices = m.WorkingDuration.choices ∧
  m1.BreakDuration.choices = m.BreakDuration.choices ∧
  m1.LongBreakDuration.choices = m.LongBreakDuration.choices ∧
  m1.SessionCount.choices = m.SessionCount.choices

instance (m m1 : Model) : Decidable (SameChoices m m1) := by
  unfold SameChoices; infer_instance

/-- The handler `HandleEnter` applied `k` times in a row. -/
def enterTimes : Nat → Model → Except Fault Model
  | 0, m => .ok m
  | k + 1, m =>
    match HandleEnter m with
    | .ok (m, _) => enterTimes k m
    | .error f => .error f

/-- The model with the cursor of the active ChoiceModel replaced; the model itself
outside the Choose phases. -/
def withActiveCursor (m : Model) (cursor : Int) : Model :=
  match m.State with
  | .ChooseWorkingDuration =>
    { m with WorkingDuration := { m.WorkingDuration with cursor := cursor } }
  | .ChooseBreakDuration =>
    { m with BreakDuration := { m.BreakDuration with cursor := cursor } }
  | .ChooseLongBreakDuration =>
    { m with LongBreakDuration := { m.LongBreakDuration with cursor := cursor } }
  | .ChooseSessionCount =>
    { m with SessionCount := { m.SessionCount with cursor := cursor } }
  | _ => m

/-- The model with the selection of the active ChoiceModel replaced; the model itself
outside the Choose phases. -/
def withActiveSelected (m : Model) (selected : String) : Model :=
  match m.State with
  | .ChooseWorkingDuration =>
    { m with WorkingDuration := { m.WorkingDuration with selected := selected } }
  | .ChooseBreakDuration =>
    { m with BreakDuration := { m.BreakDuration with selected := selected } }
  | .ChooseLongBreakDuration =>
    { m with LongBreakDuration := { m.LongBreakDuration with selected := selected } }
  | .ChooseSessionCount =>
    { m with SessionCount := { m.SessionCount with selected := selected } }
  | _ => m

/-- The selection that configures the countdown of a timer phase. -/
def phaseSelection (m : Model) : State → Option String
  | .Working => some m.WorkingDuration.selected
  | .Break => some m.BreakDuration.selected
  | .LongBreak => some m.LongBreakDuration.selected
  | _ => none

/-- The Timer of a model in a timer phase is the countdown of that phase: the selection
of the phase parses to an integer k, the tick interval is one second and the timeout is
`time.Duration(k) * time.Minute`, which is exactly k minutes of nanoseconds whenever
that product fits the 64-bit range. -/
def TimerFromSelection (m : Model) : Prop :=
  ∃ sel k, phaseSelection m m.State = some sel ∧ Atoi sel = some k ∧
    m.Timer = NewWithInterval (wrapInt64 (k * Minute)) Second ∧
    m.Timer.Interval = Second ∧
    (minInt64 ≤ k * Minute → k * Minute ≤ maxInt64 → m.Timer.Timeout = k * Minute)

/-- The inductive form of the session-index invariant for runs from the initial model:
the session counts on offer are those of `New`, the selection is one of them once a
timer phase is entered, LongBreak is not entered, totalSessions lies in `[0, bound]`,
and in Working and Break the session index lies between 0 and the session count. -/
def SessionInv (bound : Int) (m : Model) : Prop :=
  m.SessionCount.choices = ["4", "5", "6", "7"] ∧
  SelectedIsChoice m.SessionCount ∧
  0 ≤ m.totalSessions ∧ m.totalSessions ≤ bound ∧
  m.State ≠ State.LongBreak ∧
  (m.State = State.Working ∨ m.State = State.Break →
    ∃ n, Atoi m.SessionCount.selected = some n ∧
      0 ≤ m.CurrentWorkSession ∧ m.CurrentWorkSession ≤ n)

/-- The events that configure the timer from the initial model with the first choice
of each list except the long-break duration (Enter, Confirm, Enter, Confirm, Confirm,
Enter, Confirm), followed by three timer expiries. -/
def configureThenThreeExpiries (now : Date) : List Event :=
  [Event.Enter, Event.Confirm, Event.Enter, Event.Confirm, Event.Confirm, Event.Enter,
   Event.Confirm, Event.TimerTimeout now, Event.TimerTimeout now, Event.TimerTimeout now]

/-- The model `configureThenThreeExpiries` leads to from the initial model with no
session completed today: the second short break. -/
def afterThreeExpiries : Model :=
  { scenarioBreak with
    WorkingDuration := longBreakUnselected.WorkingDuration
    BreakDuration := longBreakUnselected.BreakDuration
    LongBreakDuration := longBreakUnselected.LongBreakDuration
    totalSessions := 3
    CurrentWorkSession := 2
    Timer := NewWithInterval 60000000000 Second }

/-- A model in `ChooseSessionCount` reached with Enter/Confirm from the initial model:
no session count is selected yet. -/
def sessionCountUnselected : Model :=
  { longBreakUnselected with State := State.ChooseSessionCount }

/-- A store whose every read fails with the given error. -/
def failingStore (e : String) : String → Except String (Option String) :=
  fun _ => .error e

/-- A model in Working whose session-count selection is "0". -/
def zeroSessionCount : Model :=
  { scenarioWorking with SessionCount := { scenarioWorking.SessionCount with selected := "0" } }

/-- A reading of `time.Now()`: a calendar date whose year has at most four digits. -/
def IsCalendarDate (d : Date) : Prop :=
  d.year ≤ 9999 ∧ 1 ≤ d.month ∧ d.month ≤ 12 ∧ 1 ≤ d.day ∧ d.day ≤ 31

instance (d : Date) : Decidable (IsCalendarDate d) := by
  unfold IsCalendarDate; infer_instance

/-- The first work session of the full-cycle scenario on a day whose stored count is the
largest 64-bit `int`. -/
def overflowWorking : Model :=
  { scenarioWorking with totalSessions := maxInt64 }

/-- A model in `ChooseSessionCount` whose selected working duration is 153722868
minutes, one minute more than a 64-bit `time.Duration` can hold. -/
def hugeWorkingDuration : Model :=
  { scenarioSetup with
    WorkingDuration := { choices := ["153722868"], cursor := 0, selected := "153722868" } }

/-! ## The full-cycle scenario and the expiry handler -/

/-- C1 (as the code behaves): in the full-cycle scenario ("25", "5", "15", "4", no
session completed today) Confirm enters Working with session index 0, the first three
expiries in Working lead to Break, but the 4th expiry in Working (the 7th expiry
overall) leads to Break with CurrentWorkSession = 2, not to LongBreak with 0, and the
expiry after it leads to Working with CurrentWorkSession = 4, not 1. -/
theorem full_cycle_scenario_trace (now : Date) :
    HandleConfirm scenarioSetup = .ok (scenarioWorking, Cmd.nil) ∧
    (List.range 9).map (scenarioAfter now) =
      [some (State.Working, 0), some (State.Break, 0), some (State.Working, 2),
       some (State.Break, 2), some (State.Working, 4), some (State.Break, 0),
       some (State.Working, 2), some (State.Break, 2), some (State.Working, 4)] ∧
    scenarioAfter now 7 ≠ some (State.LongBreak, 0) ∧
    scenarioAfter now 8 ≠ some (State.Working, 1) := by
  refine ⟨by rfl, by rfl, ?_, ?_⟩
  · have h : scenarioAfter now 7 = some (State.Break, 2) := by rfl
    rw [h]; decide
  · have h : scenarioAfter now 8 = some (State.Working, 4) := by rfl
    rw [h]; decide

/-- Go's remainder never equals a non-zero divisor. -/
theorem tmod_ne_self (t n : Int) (hn : n ≠ 0) : Int.tmod t n ≠ n := by
  intro h
  have hsum := Int.tmod_add_tdiv t n
  rw [h] at hsum
  have hdvd : n ∣ t := ⟨1 + t.tdiv n, by rw [mul_add, mul_one]; exact hsum.symm⟩
  have hzero := Int.tmod_eq_zero_of_dvd hdvd
  exact hn (by rw [← h, hzero])

/-- The wrap-around is the identity on the 64-bit range. -/
theorem wrapInt64_of_inRange (x : Int) (hlo : minInt64 ≤ x) (hhi : x ≤ maxInt64) :
    wrapInt64 x = x := by
  unfold wrapInt64
  unfold minInt64 at hlo
  unfold maxInt64 at hhi
  omega

/-- C3 (as the code behaves): the expiry handler increments totalSessions and writes
it to the store in every phase, not only in Working.  The first short break of the
full-cycle scenario (reached by the first expiry, with totalSessions = 1) ends with
totalSessions = 2 and the store write ("2024-03-07", "2"); the same happens from
LongBreak. -/
theorem break_timeout_counts_session :
    (HandleTimerTimeout ⟨2024, 3, 7⟩ scenarioWorking).result = .ok (scenarioBreak, Cmd.nil) ∧
    scenarioBreak.State = State.Break ∧ scenarioBreak.totalSessions = 1 ∧
    (step (Event.TimerTimeout ⟨2024, 3, 7⟩) scenarioBreak).map (fun m => m.totalSessions)
      = some 2 ∧
    (HandleTimerTimeout ⟨2024, 3, 7⟩ scenarioBreak).writes = [("2024-03-07", "2")] ∧
    (step (Event.TimerTimeout ⟨2024, 3, 7⟩)
        { scenarioBreak with State := State.LongBreak }).map (fun m => m.totalSessions)
      = some 2 ∧
    (HandleTimerTimeout ⟨2024, 3, 7⟩ { scenarioBreak with State := State.LongBreak }).writes
      = [("2024-03-07", "2")] := by
  refine ⟨by rfl, by rfl, by rfl, by rfl, by rfl, by rfl, by rfl⟩

/-- C4 (as the code behaves): from Break the expiry handler returns to Working with
TimerInitialized = false, but the session index is recomputed from totalSessions before
it is incremented.  The first short break of the full-cycle scenario has
CurrentWorkSession = 0 and totalSessions = 1; after the expiry CurrentWorkSession is
1 mod 4 + 1 = 2, not 0 + 1. -/
theorem break_timeout_session_index :
    scenarioBreak.State = State.Break ∧ scenarioBreak.CurrentWorkSession = 0 ∧
    (step (Event.TimerTimeout ⟨2024, 3, 7⟩) scenarioBreak).map
        (fun m => (m.State, m.TimerInitialized, m.CurrentWorkSession))
      = some (State.Working, false, 2) ∧
    (step (Event.TimerTimeout ⟨2024, 3, 7⟩) scenarioBreak).map (fun m => m.CurrentWorkSession)
      ≠ some (scenarioBreak.CurrentWorkSession + 1) := by
  refine ⟨by rfl, by rfl, by rfl, ?_⟩
  have h : (step (Event.TimerTimeout ⟨2024, 3, 7⟩) scenarioBreak).map
      (fun m => m.CurrentWorkSession) = some 2 := by rfl
  rw [h]
  decide

/-! ## Confirm and the selection guards -/

/-- C5 (as the code behaves): `HasSelectLongBreakDuration` reads the selection of
BreakDuration.  In `ChooseLongBreakDuration`, reached from the initial model with a
working and a break duration selected and no long-break duration selected, Confirm is
not a no-op: it moves on to `ChooseSessionCount`. -/
theorem confirm_without_long_break_selection :
    run [Event.Enter, Event.Confirm, Event.Enter, Event.Confirm] (initialModel 0)
      = some longBreakUnselected ∧
    longBreakUnselected.State = State.ChooseLongBreakDuration ∧
    longBreakUnselected.LongBreakDuration.selected = "" ∧
    HandleConfirm longBreakUnselected
      = .ok ({ longBreakUnselected with State := State.ChooseSessionCount }, Cmd.nil) := by
  refine ⟨by rfl, by rfl, by rfl, by rfl⟩

/-- C6 (as the code behaves): the events Enter, Confirm, Enter, Confirm, Confirm, Enter,
Confirm lead from the initial model to Working although the `ChooseLongBreakDuration`
phase was left with no long-break duration selected. -/
theorem working_reached_without_long_break_selection :
    (run [Event.Enter, Event.Confirm, Event.Enter, Event.Confirm, Event.Confirm, Event.Enter,
          Event.Confirm] (initialModel 0)).map
        (fun m => (m.State, m.WorkingDuration.selected, m.BreakDuration.selected,
                   m.LongBreakDuration.selected, m.SessionCount.selected))
      = some (State.Working, "1", "1", "", "4") := by
  rfl

/-! ## Enter: the single-selection toggle -/

/-- C7 (as the code behaves): in `ChooseSessionCount` the branch that switches the
selection is not followed by a return.  With "4" selected and the cursor on "5", Enter
clears the selection instead of switching it to "5". -/
theorem enter_session_count_clears_on_switch :
    sessionCountOnFive.State = State.ChooseSessionCount ∧
    sessionCountOnFive.SessionCount.selected = "4" ∧
    index sessionCountOnFive.SessionCount.choices sessionCountOnFive.SessionCount.cursor
      = .ok "5" ∧
    (step Event.Enter sessionCountOnFive).map (fun m => m.SessionCount.selected) = some "" := by
  refine ⟨by rfl, by rfl, by rfl, by rfl⟩

/-! ## Up and Down: the cursor stays in bounds -/

/-- C9: when every ChoiceModel has its cursor in bounds, HandleUp and HandleDown (in any
State) return a model in which every cursor is still in bounds; HandleUp with the
active cursor at 0 and HandleDown with it at len(choices)-1 return the model unchanged,
and otherwise, in a Choose phase, the active cursor moves by exactly one. -/
theorem up_down_keep_cursor_in_bounds (m : Model) (h : AllCursorsInBounds m) :
    AllCursorsInBounds (HandleUp m).1 ∧ AllCursorsInBounds (HandleDown m).1 ∧
    (CurrentCursor m = 0 → (HandleUp m).1 = m) ∧
    (CurrentCursor m = ((CurrentChoices m).length : Int) - 1 → (HandleDown m).1 = m) ∧
    (IsChoosePhase m.State → CurrentCursor m ≠ 0 →
      CurrentCursor (HandleUp m).1 = CurrentCursor m - 1) ∧
    (IsChoosePhase m.State → CurrentCursor m ≠ ((CurrentChoices m).length : Int) - 1 →
      CurrentCursor (HandleDown m).1 = CurrentCursor m + 1) := by
  rcases m with ⟨km, wd, bd, lbd, sc, ts, st, cws, tm, ti⟩
  simp only [AllCursorsInBounds, CursorInBounds] at h
  obtain ⟨⟨h1, h2⟩, ⟨h3, h4⟩, ⟨h5, h6⟩, ⟨h7, h8⟩⟩ := h
  cases st
  case ChooseWorkingDuration =>
    by_cases hu : wd.cursor > 0 <;>
      by_cases hd : wd.cursor < (wd.choices.length : Int) - 1 <;>
      simp [HandleUp, HandleDown, AllCursorsInBounds, CursorInBounds, CurrentCursor,
        CurrentChoices, IsChoosePhase, hu, hd, h1, h2, h3, h4, h5, h6, h7, h8] <;>
      omega
  case ChooseBreakDuration =>
    by_cases hu : bd.cursor > 0 <;>
      by_cases hd : bd.cursor < (bd.choices.length : Int) - 1 <;>
      simp [HandleUp, HandleDown, AllCursorsInBounds, CursorInBounds, CurrentCursor,
        CurrentChoices, IsChoosePhase, hu, hd, h1, h2, h3, h4, h5, h6, h7, h8] <;>
      omega
  case ChooseLongBreakDuration =>
    by_cases hu : lbd.cursor > 0 <;>
      by_cases hd : lbd.cursor < (lbd.choices.length : Int) - 1 <;>
      simp [HandleUp, HandleDown, AllCursorsInBounds, CursorInBounds, CurrentCursor,
        CurrentChoices, IsChoosePhase, hu, hd, h1, h2, h3, h4, h5, h6, h7, h8] <;>
      omega
  case ChooseSessionCount =>
    by_cases hu : sc.cursor > 0 <;>
      by_cases hd : sc.cursor < (sc.choices.length : Int) - 1 <;>
      simp [HandleUp, HandleDown, AllCursorsInBounds, CursorInBounds, CurrentCursor,
        CurrentChoices, IsChoosePhase, hu, hd, h1, h2, h3, h4, h5, h6, h7, h8] <;>
      omega
  all_goals
    simp [HandleUp, HandleDown, AllCursorsInBounds, CursorInBounds, CurrentCursor,
      CurrentChoices, IsChoosePhase, h1, h2, h3, h4, h5, h6, h7, h8]

/-- Witness for C9: the initial model, whose cursors are all 0. -/
theorem up_down_keep_cursor_in_bounds_witness :
    AllCursorsInBounds (initialModel 0) ∧
    (AllCursorsInBounds (HandleUp (initialModel 0)).1 ∧
     AllCursorsInBounds (HandleDown (initialModel 0)).1 ∧
     (CurrentCursor (initialModel 0) = 0 → (HandleUp (initialModel 0)).1 = initialModel 0) ∧
     (CurrentCursor (initialModel 0) = ((CurrentChoices (initialModel 0)).length : Int) - 1 →
       (HandleDown (initialModel 0)).1 = initialModel 0) ∧
     (IsChoosePhase (initialModel 0).State → CurrentCursor (initialModel 0) ≠ 0 →
       CurrentCursor (HandleUp (initialModel 0)).1 = CurrentCursor (initialModel 0) - 1) ∧
     (IsChoosePhase (initialModel 0).State →
       CurrentCursor (initialModel 0) ≠ ((CurrentChoices (initialModel 0)).length : Int) - 1 →
       CurrentCursor (HandleDown (initialModel 0)).1 = CurrentCursor (initialModel 0) + 1)) :=
  ⟨by decide, up_down_keep_cursor_in_bounds (initialModel 0) (by decide)⟩

/-! ## Selections stay among the choices -/

/-- An index expression with the index in range yields an element of the slice. -/
theorem index_ok_of_inBounds (cs : List String) (i : Int) (h0 : 0 ≤ i)
    (h1 : i < (cs.length : Int)) : ∃ c, index cs i = .ok c ∧ c ∈ cs := by
  have hlt : i.toNat < cs.length := by omega
  refine ⟨cs.get ⟨i.toNat, hlt⟩, ?_, List.get_mem cs i.toNat hlt⟩
  simp [index, h0, h1, List.get?_eq_get hlt]

/-- A returning `calculateCurrentWorkSession` parsed a non-zero session count and
changed nothing but `CurrentWorkSession`. -/
theorem calculateCurrentWorkSession_ok (m m1 : Model) (n : Int)
    (h : calculateCurrentWorkSession m = .ok (m1, n)) :
    Atoi m.SessionCount.selected = some n ∧ n ≠ 0 ∧
    m1 = { m with CurrentWorkSession := Int.tmod m.totalSessions n } := by
  unfold calculateCurrentWorkSession at h
  split at h
  · simp at h
  · rename_i k hk
    split at h
    · simp at h
    · rename_i hk0
      simp only [Except.ok.injEq, Prod.mk.injEq] at h
      obtain ⟨rfl, rfl⟩ := h
      exact ⟨hk, hk0, rfl⟩

/-- Confirm never touches a ChoiceModel. -/
theorem HandleConfirm_choiceModels (m m1 : Model) (c : Cmd)
    (h : HandleConfirm m = .ok (m1, c)) :
    m1.WorkingDuration = m.WorkingDuration ∧ m1.BreakDuration = m.BreakDuration ∧
    m1.LongBreakDuration = m.LongBreakDuration ∧ m1.SessionCount = m.SessionCount := by
  rcases m with ⟨km, wd, bd, lbd, sc, ts, st, cws, tm, ti⟩
  cases st <;> simp only [HandleConfirm, disableTimerKeys] at h
  case ChooseSessionCount =>
    split at h
    · simp only [Except.ok.injEq, Prod.mk.injEq] at h
      obtain ⟨rfl, _⟩ := h
      exact ⟨rfl, rfl, rfl, rfl⟩
    · split at h
      · simp at h
      · rename_i mc n hcalc
        obtain ⟨_, _, rfl⟩ := calculateCurrentWorkSession_ok _ _ _ hcalc
        split at h
        · simp at h
        · simp only [Except.ok.injEq, Prod.mk.injEq] at h
          obtain ⟨rfl, _⟩ := h
          exact ⟨rfl, rfl, rfl, rfl⟩
  all_goals
    (try split at h) <;>
    simp only [Except.ok.injEq, Prod.mk.injEq] at h <;>
    (obtain ⟨rfl, _⟩ := h; exact ⟨rfl, rfl, rfl, rfl⟩)

/-- The expiry handler never touches a ChoiceModel. -/
theorem HandleTimerTimeout_choiceModels (now : Date) (m m1 : Model) (c : Cmd)
    (h : (HandleTimerTimeout now m).result = .ok (m1, c)) :
    m1.WorkingDuration = m.WorkingDuration ∧ m1.BreakDuration = m.BreakDuration ∧
    m1.LongBreakDuration = m.LongBreakDuration ∧ m1.SessionCount = m.SessionCount := by
  unfold HandleTimerTimeout at h
  split at h
  · simp at h
  · rename_i mc n hcalc
    obtain ⟨_, _, rfl⟩ := calculateCurrentWorkSession_ok _ _ _ hcalc
    simp only at h
    repeat' split at h
    all_goals
      first
        | (simp at h; done)
        | (simp only [Except.ok.injEq, Prod.mk.injEq] at h
           obtain ⟨rfl, _⟩ := h
           exact ⟨rfl, rfl, rfl, rfl⟩)

/-- Enter with the cursors in bounds returns, leaves the choices lists and the cursors
as they are, and leaves every selection empty or among the choices. -/
theorem HandleEnter_selection (m : Model) (hc : AllCursorsInBounds m)
    (hs : AllSelectedAreChoices m) :
    ∃ m1, HandleEnter m = .ok (m1, Cmd.nil) ∧ AllSelectedAreChoices m1 ∧ SameChoices m m1 ∧
      AllCursorsInBounds m1 := by
  rcases m with ⟨km, wd, bd, lbd, sc, ts, st, cws, tm, ti⟩
  simp only [AllCursorsInBounds, CursorInBounds] at hc
  simp only [AllSelectedAreChoices, SelectedIsChoice] at hs
  obtain ⟨⟨a1, a2⟩, ⟨a3, a4⟩, ⟨a5, a6⟩, ⟨a7, a8⟩⟩ := hc
  obtain ⟨s1, s2, s3, s4⟩ := hs
  obtain ⟨c1, e1, i1⟩ := index_ok_of_inBounds wd.choices wd.cursor a1 a2
  obtain ⟨c2, e2, i2⟩ := index_ok_of_inBounds bd.choices bd.cursor a3 a4
  obtain ⟨c3, e3, i3⟩ := index_ok_of_inBounds lbd.choices lbd.cursor a5 a6
  obtain ⟨c4, e4, i4⟩ := index_ok_of_inBounds sc.choices sc.cursor a7 a8
  cases st <;>
    simp only [HandleEnter, e1, e2, e3, e4] <;>
    (try split_ifs) <;>
    refine ⟨_, rfl, ?_, ?_, ?_⟩ <;>
    simp [AllSelectedAreChoices, SelectedIsChoice, SameChoices, AllCursorsInBounds,
      CursorInBounds, *]

/-- Up, Down and StartStop leave every choices list and every selection as they are. -/
theorem up_down_startStop_selection (m : Model) :
    ((HandleUp m).1.WorkingDuration.selected = m.WorkingDuration.selected ∧
     (HandleUp m).1.BreakDuration.selected = m.BreakDuration.selected ∧
     (HandleUp m).1.LongBreakDuration.selected = m.LongBreakDuration.selected ∧
     (HandleUp m).1.SessionCount.selected = m.SessionCount.selected ∧
     SameChoices m (HandleUp m).1) ∧
    ((HandleDown m).1.WorkingDuration.selected = m.WorkingDuration.selected ∧
     (HandleDown m).1.BreakDuration.selected = m.BreakDuration.selected ∧
     (HandleDown m).1.LongBreakDuration.selected = m.LongBreakDuration.selected ∧
     (HandleDown m).1.SessionCount.selected = m.SessionCount.selected ∧
     SameChoices m (HandleDown m).1) ∧
    ((HandleStartStop m).1.WorkingDuration = m.WorkingDuration ∧
     (HandleStartStop m).1.BreakDuration = m.BreakDuration ∧
     (HandleStartStop m).1.LongBreakDuration = m.LongBreakDuration ∧
     (HandleStartStop m).1.SessionCount = m.SessionCount) := by
  rcases m with ⟨km, wd, bd, lbd, sc, ts, st, cws, tm, ti⟩
  refine ⟨?_, ?_, ?_⟩
  · cases st <;> simp only [HandleUp] <;> (try split_ifs) <;> simp [SameChoices]
  · cases st <;> simp only [HandleDown] <;> (try split_ifs) <;> simp [SameChoices]
  · simp only [HandleStartStop]
    split_ifs <;> simp

/-- C10: if every ChoiceModel has its cursor in bounds and a selection that is empty or
one of its choices, then the model returned by each of HandleUp, HandleDown,
HandleStartStop, HandleEnter, HandleConfirm and HandleTimerTimeout has the same choices
lists and again only selections that are empty or among the choices.  HandleEnter
returns on every such model; HandleConfirm and HandleTimerTimeout return whenever the
selections they parse are integers (SessionCount non-zero). -/
theorem handlers_keep_selection_among_choices (m : Model)
    (hc : AllCursorsInBounds m) (hs : AllSelectedAreChoices m) :
    (AllSelectedAreChoices (HandleUp m).1 ∧ SameChoices m (HandleUp m).1) ∧
    (AllSelectedAreChoices (HandleDown m).1 ∧ SameChoices m (HandleDown m).1) ∧
    (AllSelectedAreChoices (HandleStartStop m).1 ∧ SameChoices m (HandleStartStop m).1) ∧
    (∃ m1, HandleEnter m = .ok (m1, Cmd.nil) ∧ AllSelectedAreChoices m1 ∧ SameChoices m m1) ∧
    (∀ m1 c, HandleConfirm m = .ok (m1, c) → AllSelectedAreChoices m1 ∧ SameChoices m m1) ∧
    (∀ now m1 c, (HandleTimerTimeout now m).result = .ok (m1, c) →
      AllSelectedAreChoices m1 ∧ SameChoices m m1) ∧
    (∀ n w, Atoi m.SessionCount.selected = some n → n ≠ 0 →
      Atoi m.WorkingDuration.selected = some w → ∃ m1, HandleConfirm m = .ok (m1, Cmd.nil)) ∧
    (∀ now n w b, Atoi m.SessionCount.selected = some n → n ≠ 0 →
      Atoi m.WorkingDuration.selected = some w → Atoi m.BreakDuration.selected = some b →
      ∃ m1, (HandleTimerTimeout now m).result = .ok (m1, Cmd.nil)) := by
  obtain ⟨⟨u1, u2, u3, u4, u5⟩, ⟨d1, d2, d3, d4, d5⟩, ⟨t1, t2, t3, t4⟩⟩ :=
    up_down_startStop_selection m
  have hs0 := hs
  simp only [AllSelectedAreChoices, SelectedIsChoice] at hs
  obtain ⟨s1, s2, s3, s4⟩ := hs
  refine ⟨⟨?_, u5⟩, ⟨?_, d5⟩, ⟨?_, ?_⟩, ?_, ?_, ?_, ?_, ?_⟩
  · obtain ⟨v1, v2, v3, v4⟩ := u5
    simp only [AllSelectedAreChoices, SelectedIsChoice, u1, u2, u3, u4, v1, v2, v3, v4]
    exact ⟨s1, s2, s3, s4⟩
  · obtain ⟨v1, v2, v3, v4⟩ := d5
    simp only [AllSelectedAreChoices, SelectedIsChoice, d1, d2, d3, d4, v1, v2, v3, v4]
    exact ⟨s1, s2, s3, s4⟩
  · simp only [AllSelectedAreChoices, SelectedIsChoice, t1, t2, t3, t4]
    exact ⟨s1, s2, s3, s4⟩
  · simp only [SameChoices, t1, t2, t3, t4, and_self]
  · obtain ⟨m1, e, a, b, _⟩ := HandleEnter_selection m hc hs0
    exact ⟨m1, e, a, b⟩
  · intro m1 c h
    obtain ⟨t1, t2, t3, t4⟩ := HandleConfirm_choiceModels m m1 c h
    simp only [AllSelectedAreChoices, SelectedIsChoice, SameChoices, t1, t2, t3, t4, and_self,
      and_true]
    exact ⟨s1, s2, s3, s4⟩
  · intro now m1 c h
    obtain ⟨t1, t2, t3, t4⟩ := HandleTimerTimeout_choiceModels now m m1 c h
    simp only [AllSelectedAreChoices, SelectedIsChoice, SameChoices, t1, t2, t3, t4, and_self,
      and_true]
    exact ⟨s1, s2, s3, s4⟩
  · intro n w hn hn0 hw
    rcases m with ⟨km, wd, bd, lbd, sc, ts, st, cws, tm, ti⟩
    simp only at hn hw
    cases st <;>
      simp only [HandleConfirm, disableTimerKeys, calculateCurrentWorkSession, hn, hn0, hw,
        if_false] <;>
      (try split_ifs) <;> exact ⟨_, rfl⟩
  · intro now n w b hn hn0 hw hb
    have hne := tmod_ne_self m.totalSessions n hn0
    rcases m with ⟨km, wd, bd, lbd, sc, ts, st, cws, tm, ti⟩
    simp only at hn hw hb hne
    cases st <;>
      simp [HandleTimerTimeout, calculateCurrentWorkSession, hn, hn0, hw, hb, hne]

/-- Witness for C10: the full-cycle scenario in `ChooseSessionCount`. -/
theorem handlers_keep_selection_among_choices_witness :
    (AllCursorsInBounds scenarioSetup ∧ AllSelectedAreChoices scenarioSetup) ∧
    ((AllSelectedAreChoices (HandleUp scenarioSetup).1 ∧
        SameChoices scenarioSetup (HandleUp scenarioSetup).1) ∧
     (AllSelectedAreChoices (HandleDown scenarioSetup).1 ∧
        SameChoices scenarioSetup (HandleDown scenarioSetup).1) ∧
     (AllSelectedAreChoices (HandleStartStop scenarioSetup).1 ∧
        SameChoices scenarioSetup (HandleStartStop scenarioSetup).1) ∧
     (∃ m1, HandleEnter scenarioSetup = .ok (m1, Cmd.nil) ∧ AllSelectedAreChoices m1 ∧
        SameChoices scenarioSetup m1) ∧
     (∀ m1 c, HandleConfirm scenarioSetup = .ok (m1, c) →
        AllSelectedAreChoices m1 ∧ SameChoices scenarioSetup m1) ∧
     (∀ now m1 c, (HandleTimerTimeout now scenarioSetup).result = .ok (m1, c) →
        AllSelectedAreChoices m1 ∧ SameChoices scenarioSetup m1) ∧
     (∀ n w, Atoi scenarioSetup.SessionCount.selected = some n → n ≠ 0 →
        Atoi scenarioSetup.WorkingDuration.selected = some w →
        ∃ m1, HandleConfirm scenarioSetup = .ok (m1, Cmd.nil)) ∧
     (∀ now n w b, Atoi scenarioSetup.SessionCount.selected = some n → n ≠ 0 →
        Atoi scenarioSetup.WorkingDuration.selected = some w →
        Atoi scenarioSetup.BreakDuration.selected = some b →
        ∃ m1, (HandleTimerTimeout now scenarioSetup).result = .ok (m1, Cmd.nil))) :=
  ⟨by decide, handlers_keep_selection_among_choices scenarioSetup (by decide) (by decide)⟩

/-! ## Enter at a fixed cursor is a 2-cycle -/

/-- Three applications of Enter equal one, and two applications undo each other from an
empty selection. -/
theorem enterTimes_three_one (m : Model) (hp : IsChoosePhase m.State)
    (h0 : 0 ≤ CurrentCursor m) (h1 : CurrentCursor m < ((CurrentChoices m).length : Int))
    (hne : "" ∉ CurrentChoices m) :
    (∃ m1, enterTimes 1 m = .ok m1 ∧ enterTimes 3 m = .ok m1) ∧
    (CurrentSelectedChoice m = "" → enterTimes 2 m = .ok m) := by
  rcases m with ⟨km, wd, bd, lbd, sc, ts, st, cws, tm, ti⟩
  cases st <;> simp only [IsChoosePhase, reduceCtorEq, or_self] at hp <;>
    simp only [CurrentCursor, CurrentChoices, CurrentSelectedChoice] at h0 h1 hne ⊢
  case ChooseWorkingDuration =>
    rcases wd with ⟨chs, cur, sel⟩
    simp only at h0 h1 hne ⊢
    obtain ⟨c, e, hmem⟩ := index_ok_of_inBounds chs cur h0 h1
    have hc : c ≠ "" := fun hc0 => hne (hc0 ▸ hmem)
    have hc1 : ¬ "" = c := fun hc0 => hc hc0.symm
    by_cases hs : sel = "" <;> by_cases hs2 : c = sel <;>
      simp [enterTimes, HandleEnter, e, hs, hs2, hc, hc1]
  case ChooseBreakDuration =>
    rcases bd with ⟨chs, cur, sel⟩
    simp only at h0 h1 hne ⊢
    obtain ⟨c, e, hmem⟩ := index_ok_of_inBounds chs cur h0 h1
    have hc : c ≠ "" := fun hc0 => hne (hc0 ▸ hmem)
    have hc1 : ¬ "" = c := fun hc0 => hc hc0.symm
    by_cases hs : sel = "" <;> by_cases hs2 : c = sel <;>
      simp [enterTimes, HandleEnter, e, hs, hs2, hc, hc1]
  case ChooseLongBreakDuration =>
    rcases lbd with ⟨chs, cur, sel⟩
    simp only at h0 h1 hne ⊢
    obtain ⟨c, e, hmem⟩ := index_ok_of_inBounds chs cur h0 h1
    have hc : c ≠ "" := fun hc0 => hne (hc0 ▸ hmem)
    have hc1 : ¬ "" = c := fun hc0 => hc hc0.symm
    by_cases hs : sel = "" <;> by_cases hs2 : c = sel <;>
      simp [enterTimes, HandleEnter, e, hs, hs2, hc, hc1]
  case ChooseSessionCount =>
    rcases sc with ⟨chs, cur, sel⟩
    simp only at h0 h1 hne ⊢
    obtain ⟨c, e, hmem⟩ := index_ok_of_inBounds chs cur h0 h1
    have hc : c ≠ "" := fun hc0 => hne (hc0 ▸ hmem)
    have hc1 : ¬ "" = c := fun hc0 => hc hc0.symm
    by_cases hs : sel = "" <;> by_cases hs2 : c = sel <;>
      simp [enterTimes, HandleEnter, e, hs, hs2, hc, hc1]

/-- Enter in a Choose phase with the active cursor in bounds returns, and keeps the
State, the active cursor and the active choices. -/
theorem HandleEnter_active (m : Model) (hp : IsChoosePhase m.State)
    (h0 : 0 ≤ CurrentCursor m) (h1 : CurrentCursor m < ((CurrentChoices m).length : Int)) :
    ∃ m1, HandleEnter m = .ok (m1, Cmd.nil) ∧ m1.State = m.State ∧
      CurrentCursor m1 = CurrentCursor m ∧ CurrentChoices m1 = CurrentChoices m := by
  rcases m with ⟨km, wd, bd, lbd, sc, ts, st, cws, tm, ti⟩
  cases st <;> simp only [IsChoosePhase, reduceCtorEq, or_self] at hp <;>
    simp only [CurrentCursor, CurrentChoices] at h0 h1
  case ChooseWorkingDuration =>
    rcases wd with ⟨chs, cur, sel⟩
    simp only at h0 h1 ⊢
    obtain ⟨c, e, _⟩ := index_ok_of_inBounds chs cur h0 h1
    by_cases hs : sel = "" <;> by_cases hs2 : c = sel <;>
      simp [HandleEnter, e, hs, hs2, CurrentCursor, CurrentChoices]
  case ChooseBreakDuration =>
    rcases bd with ⟨chs, cur, sel⟩
    simp only at h0 h1 ⊢
    obtain ⟨c, e, _⟩ := index_ok_of_inBounds chs cur h0 h1
    by_cases hs : sel = "" <;> by_cases hs2 : c = sel <;>
      simp [HandleEnter, e, hs, hs2, CurrentCursor, CurrentChoices]
  case ChooseLongBreakDuration =>
    rcases lbd with ⟨chs, cur, sel⟩
    simp only at h0 h1 ⊢
    obtain ⟨c, e, _⟩ := index_ok_of_inBounds chs cur h0 h1
    by_cases hs : sel = "" <;> by_cases hs2 : c = sel <;>
      simp [HandleEnter, e, hs, hs2, CurrentCursor, CurrentChoices]
  case ChooseSessionCount =>
    rcases sc with ⟨chs, cur, sel⟩
    simp only at h0 h1 ⊢
    obtain ⟨c, e, _⟩ := index_ok_of_inBounds chs cur h0 h1
    by_cases hs : sel = "" <;> by_cases hs2 : c = sel <;>
      simp [HandleEnter, e, hs, hs2, CurrentCursor, CurrentChoices]

/-! ## Frame lemmas for Up, Down, Enter and StartStop -/

/-- Up changes at most the cursor of the active ChoiceModel and returns no command. -/
theorem HandleUp_eq (m : Model) :
    HandleUp m = (withActiveCursor m (CurrentCursor (HandleUp m).1), Cmd.nil) := by
  rcases m with ⟨km, wd, bd, lbd, sc, ts, st, cws, tm, ti⟩
  cases st <;> simp only [HandleUp, withActiveCursor, CurrentCursor] <;>
    (try split_ifs) <;> rfl

/-- Down changes at most the cursor of the active ChoiceModel and returns no command. -/
theorem HandleDown_eq (m : Model) :
    HandleDown m = (withActiveCursor m (CurrentCursor (HandleDown m).1), Cmd.nil) := by
  rcases m with ⟨km, wd, bd, lbd, sc, ts, st, cws, tm, ti⟩
  cases st <;> simp only [HandleDown, withActiveCursor, CurrentCursor] <;>
    (try split_ifs) <;> rfl

/-- An index expression that does not panic yields an element of the slice. -/
theorem index_mem (cs : List String) (i : Int) (c : String) (h : index cs i = .ok c) :
    c ∈ cs := by
  unfold index at h
  split_ifs at h with hb
  · have hlt : i.toNat < cs.length := by omega
    rw [List.get?_eq_get hlt] at h
    simp only [Except.ok.injEq] at h
    rw [← h]
    exact List.get_mem cs i.toNat hlt

/-- A returning Enter changes at most the selection of the active ChoiceModel, to the
choice under the cursor or to the empty string, and returns no command. -/
theorem HandleEnter_eq (m m1 : Model) (c : Cmd) (h : HandleEnter m = .ok (m1, c)) :
    c = Cmd.nil ∧ m1 = withActiveSelected m (CurrentSelectedChoice m1) ∧
    (IsChoosePhase m.State →
      CurrentSelectedChoice m1 = "" ∨ CurrentSelectedChoice m1 ∈ CurrentChoices m) := by
  rcases m with ⟨km, wd, bd, lbd, sc, ts, st, cws, tm, ti⟩
  cases st <;> simp only [HandleEnter] at h
  case ChooseWorkingDuration =>
    cases hidx : index wd.choices wd.cursor with
    | error f => simp [hidx] at h
    | ok v =>
      have hmem := index_mem _ _ _ hidx
      simp only [hidx] at h
      split_ifs at h <;>
        simp only [Except.ok.injEq, Prod.mk.injEq] at h <;>
        obtain ⟨rfl, rfl⟩ := h <;>
        simp [withActiveSelected, CurrentSelectedChoice, CurrentChoices, hmem]
  case ChooseBreakDuration =>
    cases hidx : index bd.choices bd.cursor with
    | error f => simp [hidx] at h
    | ok v =>
      have hmem := index_mem _ _ _ hidx
      simp only [hidx] at h
      split_ifs at h <;>
        simp only [Except.ok.injEq, Prod.mk.injEq] at h <;>
        obtain ⟨rfl, rfl⟩ := h <;>
        simp [withActiveSelected, CurrentSelectedChoice, CurrentChoices, hmem]
  case ChooseLongBreakDuration =>
    cases hidx : index lbd.choices lbd.cursor with
    | error f => simp [hidx] at h
    | ok v =>
      have hmem := index_mem _ _ _ hidx
      simp only [hidx] at h
      split_ifs at h <;>
        simp only [Except.ok.injEq, Prod.mk.injEq] at h <;>
        obtain ⟨rfl, rfl⟩ := h <;>
        simp [withActiveSelected, CurrentSelectedChoice, CurrentChoices, hmem]
  case ChooseSessionCount =>
    cases hidx : index sc.choices sc.cursor with
    | error f => simp [hidx] at h
    | ok v =>
      have hmem := index_mem _ _ _ hidx
      simp only [hidx] at h
      split_ifs at h <;>
        simp only [Except.ok.injEq, Prod.mk.injEq] at h <;>
        obtain ⟨rfl, rfl⟩ := h <;>
        simp [withActiveSelected, CurrentSelectedChoice, CurrentChoices, hmem]
  all_goals
    simp only [Except.ok.injEq, Prod.mk.injEq] at h
    obtain ⟨rfl, rfl⟩ := h
    simp [withActiveSelected, IsChoosePhase]

/-! ## The session index along runs from the initial model -/

/-- A non-empty selection among the session counts of `New` parses to 4, 5, 6 or 7. -/
theorem sessionCount_parses (c : ChoiceModel) (hch : c.choices = ["4", "5", "6", "7"])
    (hs : SelectedIsChoice c) (hne : c.selected ≠ "") :
    ∃ n, Atoi c.selected = some n ∧ 4 ≤ n ∧ n ≤ 7 := by
  rcases hs with h | h
  · exact absurd h hne
  · rw [hch] at h
    simp only [List.mem_cons, List.mem_singleton, List.not_mem_nil, or_false] at h
    rcases h with h | h | h | h <;> rw [h]
    · exact ⟨4, by decide, by decide, by decide⟩
    · exact ⟨5, by decide, by decide, by decide⟩
    · exact ⟨6, by decide, by decide, by decide⟩
    · exact ⟨7, by decide, by decide, by decide⟩

/-- The empty string is not an integer. -/
theorem Atoi_empty : Atoi "" = none := by decide

/-- The session-index invariant reads only five components of the model. -/
theorem SessionInv_of_eq (B : Int) (m m1 : Model)
    (h1 : m1.SessionCount.choices = m.SessionCount.choices)
    (h2 : m1.SessionCount.selected = m.SessionCount.selected)
    (h3 : m1.totalSessions = m.totalSessions) (h4 : m1.State = m.State)
    (h5 : m1.CurrentWorkSession = m.CurrentWorkSession) (h : SessionInv B m) :
    SessionInv B m1 := by
  unfold SessionInv SelectedIsChoice at *
  rw [h1, h2, h3, h4, h5]
  exact h

/-- The invariant is monotone in the bound on totalSessions. -/
theorem SessionInv_mono (B B1 : Int) (m : Model) (hB : B ≤ B1) (h : SessionInv B m) :
    SessionInv B1 m := by
  obtain ⟨a, b, c, d, e, f⟩ := h
  exact ⟨a, b, c, le_trans d hB, e, f⟩

/-- Up, Down and StartStop keep the State, the counters and the SessionCount selection. -/
theorem SessionInv_up_down_startStop (B : Int) (m : Model) (h : SessionInv B m) :
    SessionInv B (HandleUp m).1 ∧ SessionInv B (HandleDown m).1 ∧
    SessionInv B (HandleStartStop m).1 := by
  refine ⟨?_, ?_, ?_⟩
  · refine SessionInv_of_eq B m _ ?_ ?_ ?_ ?_ ?_ h <;>
      (rw [HandleUp_eq]; rcases m with ⟨km, wd, bd, lbd, sc, ts, st, cws, tm, ti⟩;
       cases st <;> rfl)
  · refine SessionInv_of_eq B m _ ?_ ?_ ?_ ?_ ?_ h <;>
      (rw [HandleDown_eq]; rcases m with ⟨km, wd, bd, lbd, sc, ts, st, cws, tm, ti⟩;
       cases st <;> rfl)
  · refine SessionInv_of_eq B m _ ?_ ?_ ?_ ?_ ?_ h <;>
      (simp only [HandleStartStop]; split_ifs <;> rfl)

/-- A returning Enter keeps the invariant. -/
theorem SessionInv_enter (B : Int) (m m1 : Model) (c : Cmd) (h : SessionInv B m)
    (he : HandleEnter m = .ok (m1, c)) : SessionInv B m1 := by
  obtain ⟨_, heq, hsel⟩ := HandleEnter_eq m m1 c he
  rcases m with ⟨km, wd, bd, lbd, sc, ts, st, cws, tm, ti⟩
  cases st
  case ChooseSessionCount =>
    obtain ⟨a, b, c1, d, e, f⟩ := h
    have hs := hsel (by simp [IsChoosePhase])
    rw [heq]
    simp only [withActiveSelected, CurrentChoices] at hs ⊢
    refine ⟨a, ?_, c1, d, by simp, by simp⟩
    exact hs
  all_goals
    refine SessionInv_of_eq B _ _ ?_ ?_ ?_ ?_ ?_ h <;> (rw [heq]; rfl)

/-- With the session counts of `New`, a selection that parses is one of 4, 5, 6, 7. -/
theorem SessionInv_parse (B : Int) (m : Model) (n : Int) (h : SessionInv B m)
    (hn : Atoi m.SessionCount.selected = some n) : 4 ≤ n ∧ n ≤ 7 := by
  obtain ⟨a, b, _, _, _, _⟩ := h
  have hne : m.SessionCount.selected ≠ "" := by
    intro h0
    rw [h0, Atoi_empty] at hn
    cases hn
  obtain ⟨k, hk, h4, h7⟩ := sessionCount_parses m.SessionCount a b hne
  rw [hk] at hn
  cases hn
  exact ⟨h4, h7⟩

/-- A returning Confirm keeps the invariant. -/
theorem SessionInv_confirm (B : Int) (m m1 : Model) (c : Cmd) (h : SessionInv B m)
    (hc : HandleConfirm m = .ok (m1, c)) : SessionInv B m1 := by
  rcases m with ⟨km, wd, bd, lbd, sc, ts, st, cws, tm, ti⟩
  cases st <;> simp only [HandleConfirm, disableTimerKeys] at hc
  case ChooseSessionCount =>
    split at hc
    · simp only [Except.ok.injEq, Prod.mk.injEq] at hc
      obtain ⟨rfl, _⟩ := hc
      exact h
    · split at hc
      · simp at hc
      · rename_i mc n hcalc
        obtain ⟨hn, _, rfl⟩ := calculateCurrentWorkSession_ok _ _ _ hcalc
        obtain ⟨h4, _⟩ := SessionInv_parse B _ n h hn
        split at hc
        · simp at hc
        · simp only [Except.ok.injEq, Prod.mk.injEq] at hc
          obtain ⟨rfl, _⟩ := hc
          obtain ⟨a, b, c1, d, _, _⟩ := h
          simp only at hn c1
          refine ⟨a, b, c1, d, by simp, fun _ => ⟨n, hn, ?_, ?_⟩⟩
          · exact Int.tmod_nonneg n c1
          · exact le_of_lt (Int.tmod_lt_of_pos ts (by omega))
  case Working =>
    simp only [Except.ok.injEq, Prod.mk.injEq] at hc
    obtain ⟨rfl, _⟩ := hc
    exact h
  case Break =>
    simp only [Except.ok.injEq, Prod.mk.injEq] at hc
    obtain ⟨rfl, _⟩ := hc
    exact h
  case LongBreak =>
    simp only [Except.ok.injEq, Prod.mk.injEq] at hc
    obtain ⟨rfl, _⟩ := hc
    exact h
  all_goals
    obtain ⟨a, b, c1, d, _, _⟩ := h
    split at hc <;>
      simp only [Except.ok.injEq, Prod.mk.injEq] at hc <;>
      obtain ⟨rfl, _⟩ := hc <;>
      exact ⟨a, b, c1, d, by simp, by simp⟩

/-- A returning expiry handler keeps the invariant, with the bound on totalSessions
raised by one, as long as the raised bound fits the 64-bit `int`. -/
theorem SessionInv_timeout (B : Int) (now : Date) (m m1 : Model) (c : Cmd)
    (h : SessionInv B m) (hB : B + 1 ≤ maxInt64)
    (hr : (HandleTimerTimeout now m).result = .ok (m1, c)) : SessionInv (B + 1) m1 := by
  cases hA : Atoi m.SessionCount.selected with
  | none => simp [HandleTimerTimeout, calculateCurrentWorkSession, hA] at hr
  | some n =>
    obtain ⟨h4, h7⟩ := SessionInv_parse B m n h hA
    obtain ⟨a, b, c1, d, e, f⟩ := h
    have hn0 : n ≠ 0 := by omega
    have hne := tmod_ne_self m.totalSessions n hn0
    have hm0 := Int.tmod_nonneg n c1
    have hm1 := Int.tmod_lt_of_pos m.totalSessions (show (0 : Int) < n by omega)
    have hw : wrapInt64 (m.totalSessions + 1) = m.totalSessions + 1 :=
      wrapInt64_of_inRange _ (by unfold minInt64; omega) (by omega)
    have hw2 : wrapInt64 (m.totalSessions.tmod n + 1) = m.totalSessions.tmod n + 1 :=
      wrapInt64_of_inRange _ (by unfold minInt64; omega) (by unfold maxInt64; omega)
    rcases m with ⟨km, wd, bd, lbd, sc, ts, st, cws, tm, ti⟩
    simp only at a b c1 d e f hA hne hm0 hm1 hw hw2
    cases st <;>
      simp only [HandleTimerTimeout, calculateCurrentWorkSession, hA, hn0, hne, hw, hw2,
        if_false, if_true, and_false, true_and, reduceCtorEq, and_self] at hr
    case LongBreak => exact absurd rfl e
    case Working =>
      split at hr
      · simp at hr
      · simp only [Except.ok.injEq, Prod.mk.injEq] at hr
        obtain ⟨rfl, _⟩ := hr
        refine ⟨a, b, ?_, ?_, by simp, fun _ => ⟨n, hA, hm0, le_of_lt hm1⟩⟩
        · show (0 : Int) ≤ ts + 1
          omega
        · show ts + 1 ≤ B + 1
          omega
    case Break =>
      split at hr
      · simp at hr
      · simp only [Except.ok.injEq, Prod.mk.injEq] at hr
        obtain ⟨rfl, _⟩ := hr
        refine ⟨a, b, ?_, ?_, by simp, fun _ => ⟨n, hA, ?_, ?_⟩⟩
        · show (0 : Int) ≤ ts + 1
          omega
        · show ts + 1 ≤ B + 1
          omega
        · show (0 : Int) ≤ ts.tmod n + 1
          omega
        · show ts.tmod n + 1 ≤ n
          omega
    all_goals
      simp only [Except.ok.injEq, Prod.mk.injEq] at hr
      obtain ⟨rfl, _⟩ := hr
      refine ⟨a, b, ?_, ?_, by simp, by simp⟩
      · show (0 : Int) ≤ ts + 1
        omega
      · show ts + 1 ≤ B + 1
        omega

/-- One event keeps the invariant, with the bound on totalSessions raised by one. -/
theorem SessionInv_step (B : Int) (e : Event) (m m1 : Model) (h : SessionInv B m)
    (hB : B + 1 ≤ maxInt64) (hs : step e m = some m1) : SessionInv (B + 1) m1 := by
  have hmono : ∀ x, SessionInv B x → SessionInv (B + 1) x :=
    fun x hx => SessionInv_mono B (B + 1) x (by omega) hx
  obtain ⟨hu, hd, hss⟩ := SessionInv_up_down_startStop B m h
  cases e <;> simp only [step] at hs
  case Up => cases hs; exact hmono _ hu
  case Down => cases hs; exact hmono _ hd
  case StartStop => cases hs; exact hmono _ hss
  case Enter =>
    split at hs
    · rename_i m2 c he
      cases hs
      exact hmono _ (SessionInv_enter B m _ c h he)
    · cases hs
  case Confirm =>
    split at hs
    · rename_i m2 c hc
      cases hs
      exact hmono _ (SessionInv_confirm B m _ c h hc)
    · cases hs
  case TimerTimeout now =>
    split at hs
    · rename_i m2 c hr
      cases hs
      exact SessionInv_timeout B now m _ c h hB hr
    · cases hs

/-- A run keeps the invariant, with the bound raised by the number of events. -/
theorem SessionInv_run (es : List Event) (B : Int) (m m1 : Model) (h : SessionInv B m)
    (hB : B + (es.length : Int) ≤ maxInt64) (hr : run es m = some m1) :
    SessionInv (B + (es.length : Int)) m1 := by
  induction es generalizing B m with
  | nil =>
    simp only [run, Option.some.injEq] at hr
    subst hr
    simpa using h
  | cons e es ih =>
    simp only [run] at hr
    simp only [List.length_cons, Nat.cast_add, Nat.cast_one] at hB ⊢
    split at hr
    · rename_i m2 hs
      have h2 := SessionInv_step B e m m2 h (by omega) hs
      have h3 := ih (B + 1) m2 h2 (by omega) hr
      have hEq : B + 1 + (es.length : Int) = B + ((es.length : Int) + 1) := by ring
      rw [hEq] at h3
      exact h3
    · cases hr

/-- The initial model satisfies the invariant. -/
theorem SessionInv_initial (t0 : Int) (h0 : 0 ≤ t0) : SessionInv t0 (initialModel t0) := by
  refine ⟨rfl, Or.inl rfl, h0, le_refl _, by simp [initialModel], ?_⟩
  intro h
  simp [initialModel] at h

/-- C11 (amended): in every state reached from an initial model with totalSessions ≥ 0 by
a sequence of handler events short enough for totalSessions not to pass the largest
64-bit `int` (initial totalSessions + number of events ≤ 2^63 - 1), whenever State is
Working or Break the selection of SessionCount parses to an integer n and
0 ≤ CurrentWorkSession ≤ n. -/
theorem session_index_in_range (t0 : Int) (es : List Event) (m : Model) (h0 : 0 ≤ t0)
    (hB : t0 + (es.length : Int) ≤ maxInt64) (hr : run es (initialModel t0) = some m)
    (hs : m.State = State.Working ∨ m.State = State.Break) :
    ∃ n, Atoi m.SessionCount.selected = some n ∧
      0 ≤ m.CurrentWorkSession ∧ m.CurrentWorkSession ≤ n :=
  (SessionInv_run es t0 (initialModel t0) m (SessionInv_initial t0 h0) hB hr).2.2.2.2.2 hs

/-- Witness for C11: the full configuration followed by three expiries, from a day with
no session completed; the run ends in Break with session index 2 of 4. -/
theorem session_index_in_range_witness :
    ((0 : Int) ≤ 0 ∧
     (0 : Int) + ((configureThenThreeExpiries ⟨2024, 3, 7⟩).length : Int) ≤ maxInt64 ∧
     run (configureThenThreeExpiries ⟨2024, 3, 7⟩) (initialModel 0) = some afterThreeExpiries ∧
     (afterThreeExpiries.State = State.Working ∨ afterThreeExpiries.State = State.Break)) ∧
    ∃ n, Atoi afterThreeExpiries.SessionCount.selected = some n ∧
      0 ≤ afterThreeExpiries.CurrentWorkSession ∧ afterThreeExpiries.CurrentWorkSession ≤ n :=
  ⟨⟨by decide, by decide, by rfl, Or.inr rfl⟩,
   session_index_in_range 0 (configureThenThreeExpiries ⟨2024, 3, 7⟩) afterThreeExpiries
     (by decide) (by decide) (by rfl) (Or.inr rfl)⟩

/-- C11 (as the code behaves, counterexample): from the initial model with
totalSessions = 2^63 - 1, which is ≥ 0, the full configuration followed by three
expiries ends in Break with "4" selected and CurrentWorkSession = -3: the first expiry
wraps totalSessions to -2^63 and Go's remainder of a negative number is negative. -/
theorem session_index_negative_after_overflow :
    (0 : Int) ≤ maxInt64 ∧
    (run (configureThenThreeExpiries ⟨2024, 3, 7⟩) (initialModel maxInt64)).map
        (fun m => (m.State, m.SessionCount.selected, m.CurrentWorkSession))
      = some (State.Break, "4", -3) ∧
    ¬ ((0 : Int) ≤ -3) := by
  refine ⟨by decide, by rfl, by decide⟩

/-! ## What `calculateCurrentWorkSession` computes -/

/-- With a session count that parses to a non-zero integer `calculateCurrentWorkSession`
returns that count and stores Go's remainder. -/
theorem calculateCurrentWorkSession_eq (m : Model) (n : Int)
    (hn : Atoi m.SessionCount.selected = some n) (hn0 : n ≠ 0) :
    calculateCurrentWorkSession m
      = .ok ({ m with CurrentWorkSession := Int.tmod m.totalSessions n }, n) := by
  simp [calculateCurrentWorkSession, hn, hn0]

/-- C12 (as the code behaves, counterexample): with totalSessions = 3 and "4" selected,
`calculateCurrentWorkSession` stores 3 in CurrentWorkSession and returns 4: the return
value is the session count, neither totalSessions mod n nor the stored value. -/
theorem calculateCurrentWorkSession_returns_count :
    afterThreeExpiries.totalSessions = 3 ∧
    Atoi afterThreeExpiries.SessionCount.selected = some 4 ∧
    calculateCurrentWorkSession afterThreeExpiries
      = .ok ({ afterThreeExpiries with CurrentWorkSession := 3 }, 4) ∧
    (4 : Int) ≠ 3 % 4 ∧ (4 : Int) ≠ 3 := by
  refine ⟨by rfl, by decide, by rfl, by decide, by decide⟩

/-- C12 (amended): for every totalSessions and every SessionCount.selected that parses to
a non-zero integer n, `calculateCurrentWorkSession` stores Go's remainder
totalSessions % n in CurrentWorkSession, changes nothing else, and returns n, the
parsed session count, which never equals the stored value; for totalSessions ≥ 0 and
n > 0 the stored value is totalSessions mod n. -/
theorem calculateCurrentWorkSession_spec (m : Model) (n : Int)
    (hn : Atoi m.SessionCount.selected = some n) (hn0 : n ≠ 0) :
    calculateCurrentWorkSession m
      = .ok ({ m with CurrentWorkSession := Int.tmod m.totalSessions n }, n) ∧
    n ≠ Int.tmod m.totalSessions n ∧
    (0 ≤ m.totalSessions → 0 < n → Int.tmod m.totalSessions n = m.totalSessions % n) := by
  refine ⟨calculateCurrentWorkSession_eq m n hn hn0,
    fun h => tmod_ne_self m.totalSessions n hn0 h.symm, ?_⟩
  · intro ht hpos
    exact Int.tmod_eq_emod ht (le_of_lt hpos)

/-- Witness for C12: totalSessions = 3 and "4" selected. -/
theorem calculateCurrentWorkSession_spec_witness :
    (Atoi afterThreeExpiries.SessionCount.selected = some 4 ∧ (4 : Int) ≠ 0) ∧
    (calculateCurrentWorkSession afterThreeExpiries
      = .ok ({ afterThreeExpiries with
               CurrentWorkSession := Int.tmod afterThreeExpiries.totalSessions 4 }, 4) ∧
     (4 : Int) ≠ Int.tmod afterThreeExpiries.totalSessions 4 ∧
     (0 ≤ afterThreeExpiries.totalSessions → (0 : Int) < 4 →
        Int.tmod afterThreeExpiries.totalSessions 4 = afterThreeExpiries.totalSessions % 4)) :=
  ⟨by decide, calculateCurrentWorkSession_spec afterThreeExpiries 4 (by decide) (by decide)⟩

/-- C13: for totalSessions ≥ 0 and a SessionCount.selected that parses to n ≥ 1,
`calculateCurrentWorkSession` returns and leaves in CurrentWorkSession the value
totalSessions mod n, which lies in [0, n-1]; Confirm in `ChooseSessionCount` (with a
working duration that parses) enters Working with that same CurrentWorkSession. -/
theorem current_session_index_in_bounds (m : Model) (n : Int) (ht : 0 ≤ m.totalSessions)
    (hn : Atoi m.SessionCount.selected = some n) (hn1 : 1 ≤ n) :
    (∃ m1, calculateCurrentWorkSession m = .ok (m1, n) ∧
      m1.CurrentWorkSession = m.totalSessions % n ∧
      0 ≤ m1.CurrentWorkSession ∧ m1.CurrentWorkSession ≤ n - 1) ∧
    (m.State = State.ChooseSessionCount →
      ∀ w, Atoi m.WorkingDuration.selected = some w →
        ∃ m2, HandleConfirm m = .ok (m2, Cmd.nil) ∧ m2.State = State.Working ∧
          m2.CurrentWorkSession = m.totalSessions % n ∧
          0 ≤ m2.CurrentWorkSession ∧ m2.CurrentWorkSession ≤ n - 1) := by
  have hn0 : n ≠ 0 := by omega
  have hmod : Int.tmod m.totalSessions n = m.totalSessions % n :=
    Int.tmod_eq_emod ht (by omega)
  have hlo : 0 ≤ m.totalSessions % n := Int.emod_nonneg _ hn0
  have hhi : m.totalSessions % n < n := Int.emod_lt_of_pos _ (by omega)
  have hsel : m.SessionCount.selected ≠ "" := by
    intro h0
    rw [h0, Atoi_empty] at hn
    cases hn
  refine ⟨⟨_, calculateCurrentWorkSession_eq m n hn hn0, hmod, ?_, ?_⟩, ?_⟩
  · show 0 ≤ Int.tmod m.totalSessions n
    omega
  · show Int.tmod m.totalSessions n ≤ n - 1
    omega
  · intro hst w hw
    rcases m with ⟨km, wd, bd, lbd, sc, ts, st, cws, tm, ti⟩
    simp only at hst hw hn hsel hmod hlo hhi
    subst hst
    have hb : ¬ ((!sc.selected != "") = true) := by simp [hsel]
    simp only [HandleConfirm, HasSelectedSessionCount, calculateCurrentWorkSession, hn, hn0, hw,
      hb, if_false]
    refine ⟨_, rfl, rfl, hmod, ?_, ?_⟩
    · show 0 ≤ Int.tmod ts n
      omega
    · show Int.tmod ts n ≤ n - 1
      omega

/-- Witness for C13: the full-cycle scenario before its last Confirm. -/
theorem current_session_index_in_bounds_witness :
    ((0 : Int) ≤ scenarioSetup.totalSessions ∧
     Atoi scenarioSetup.SessionCount.selected = some 4 ∧ (1 : Int) ≤ 4) ∧
    ((∃ m1, calculateCurrentWorkSession scenarioSetup = .ok (m1, 4) ∧
      m1.CurrentWorkSession = scenarioSetup.totalSessions % 4 ∧
      0 ≤ m1.CurrentWorkSession ∧ m1.CurrentWorkSession ≤ 4 - 1) ∧
    (scenarioSetup.State = State.ChooseSessionCount →
      ∀ w, Atoi scenarioSetup.WorkingDuration.selected = some w →
        ∃ m2, HandleConfirm scenarioSetup = .ok (m2, Cmd.nil) ∧ m2.State = State.Working ∧
          m2.CurrentWorkSession = scenarioSetup.totalSessions % 4 ∧
          0 ≤ m2.CurrentWorkSession ∧ m2.CurrentWorkSession ≤ 4 - 1)) :=
  ⟨by decide, current_session_index_in_bounds scenarioSetup 4 (by decide) (by decide) (by decide)⟩

/-! ## The countdown of a phase -/

/-- A model whose Timer was built from the parsed selection of its phase. -/
theorem TimerFromSelection_intro (m : Model) (sel : String) (k : Int)
    (h1 : phaseSelection m m.State = some sel) (h2 : Atoi sel = some k)
    (h3 : m.Timer = NewWithInterval (wrapInt64 (k * Minute)) Second) :
    TimerFromSelection m := by
  refine ⟨sel, k, h1, h2, h3, by rw [h3]; rfl, ?_⟩
  intro hlo hhi
  rw [h3]
  exact wrapInt64_of_inRange _ hlo hhi

/-- An expiry that changes the State leaves the countdown of the phase entered, not yet
started, and never enters LongBreak. -/
theorem timeout_timer (now : Date) (m m1 : Model) (c : Cmd)
    (hr : (HandleTimerTimeout now m).result = .ok (m1, c)) (hch : m1.State ≠ m.State) :
    m1.TimerInitialized = false ∧ TimerFromSelection m1 := by
  cases hA : Atoi m.SessionCount.selected with
  | none => simp [HandleTimerTimeout, calculateCurrentWorkSession, hA] at hr
  | some n =>
    have hn0 : n ≠ 0 := by
      intro h0
      simp [HandleTimerTimeout, calculateCurrentWorkSession, hA, h0] at hr
    have hne := tmod_ne_self m.totalSessions n hn0
    rcases m with ⟨km, wd, bd, lbd, sc, ts, st, cws, tm, ti⟩
    simp only at hA hne
    cases st <;>
      simp only [HandleTimerTimeout, calculateCurrentWorkSession, hA, hn0, hne,
        if_false, if_true, and_false, true_and, reduceCtorEq, and_self] at hr
    case Working =>
      split at hr
      · simp at hr
      · rename_i k hk
        simp only [Except.ok.injEq, Prod.mk.injEq] at hr
        obtain ⟨rfl, _⟩ := hr
        exact ⟨rfl, TimerFromSelection_intro _ bd.selected k rfl hk rfl⟩
    case Break =>
      split at hr
      · simp at hr
      · rename_i k hk
        simp only [Except.ok.injEq, Prod.mk.injEq] at hr
        obtain ⟨rfl, _⟩ := hr
        exact ⟨rfl, TimerFromSelection_intro _ wd.selected k rfl hk rfl⟩
    case LongBreak =>
      split at hr
      · simp at hr
      · rename_i k hk
        simp only [Except.ok.injEq, Prod.mk.injEq] at hr
        obtain ⟨rfl, _⟩ := hr
        exact ⟨rfl, TimerFromSelection_intro _ wd.selected k rfl hk rfl⟩
    all_goals
      simp only [Except.ok.injEq, Prod.mk.injEq] at hr
      obtain ⟨rfl, _⟩ := hr
      exact absurd rfl hch

/-- A Confirm in `ChooseSessionCount` that changes the State leaves the countdown of
Working. -/
theorem confirm_timer (m m1 : Model) (c : Cmd) (hst : m.State = State.ChooseSessionCount)
    (hc : HandleConfirm m = .ok (m1, c)) (hch : m1.State ≠ m.State) :
    m1.State = State.Working ∧ TimerFromSelection m1 := by
  rcases m with ⟨km, wd, bd, lbd, sc, ts, st, cws, tm, ti⟩
  simp only at hst
  subst hst
  simp only [HandleConfirm] at hc
  split at hc
  · simp only [Except.ok.injEq, Prod.mk.injEq] at hc
    obtain ⟨rfl, _⟩ := hc
    exact absurd rfl hch
  · split at hc
    · simp at hc
    · rename_i mc n hcalc
      obtain ⟨_, _, rfl⟩ := calculateCurrentWorkSession_ok _ _ _ hcalc
      split at hc
      · simp at hc
      · rename_i k hk
        simp only [Except.ok.injEq, Prod.mk.injEq] at hc
        obtain ⟨rfl, _⟩ := hc
        exact ⟨rfl, TimerFromSelection_intro _ wd.selected k rfl hk rfl⟩

/-- With a session count that parses to a non-zero integer the expiry handler returns
whenever the duration it needs parses: Working leads to Break, Break and LongBreak lead
to Working, and a Choose phase is kept. -/
theorem timeout_returns (now : Date) (m : Model) (n : Int)
    (hn : Atoi m.SessionCount.selected = some n) (hn0 : n ≠ 0) :
    (m.State = State.Working → ∀ k, Atoi m.BreakDuration.selected = some k →
      ∃ m1, (HandleTimerTimeout now m).result = .ok (m1, Cmd.nil) ∧ m1.State = State.Break) ∧
    (m.State = State.Break ∨ m.State = State.LongBreak →
      ∀ k, Atoi m.WorkingDuration.selected = some k →
      ∃ m1, (HandleTimerTimeout now m).result = .ok (m1, Cmd.nil) ∧ m1.State = State.Working) ∧
    (IsChoosePhase m.State →
      ∃ m1, (HandleTimerTimeout now m).result = .ok (m1, Cmd.nil) ∧ m1.State = m.State) := by
  have hne := tmod_ne_self m.totalSessions n hn0
  rcases m with ⟨km, wd, bd, lbd, sc, ts, st, cws, tm, ti⟩
  simp only at hn hne
  refine ⟨?_, ?_, ?_⟩
  · intro hst k hk
    simp only at hst hk
    subst hst
    simp only [HandleTimerTimeout, calculateCurrentWorkSession, hn, hn0, hne, hk, if_false,
      and_false, if_true, true_and]
    exact ⟨_, rfl, rfl⟩
  · intro hst k hk
    simp only at hst hk
    rcases hst with hst | hst <;> subst hst <;>
      simp only [HandleTimerTimeout, calculateCurrentWorkSession, hn, hn0, hne, hk, if_false,
        and_false, if_true, true_and, reduceCtorEq, false_and] <;>
      exact ⟨_, rfl, rfl⟩
  · intro hst
    simp only [IsChoosePhase] at hst
    rcases hst with hst | hst | hst | hst <;> subst hst <;>
      simp only [HandleTimerTimeout, calculateCurrentWorkSession, hn, hn0, hne, if_false,
        and_false, if_true, true_and, reduceCtorEq, false_and] <;>
      exact ⟨_, rfl, rfl⟩

/-- Confirm in `ChooseSessionCount` with a selected session count that parses to a
non-zero integer and a working duration that parses returns and enters Working. -/
theorem confirm_returns (m : Model) (n k : Int) (hst : m.State = State.ChooseSessionCount)
    (hn : Atoi m.SessionCount.selected = some n) (hn0 : n ≠ 0)
    (hk : Atoi m.WorkingDuration.selected = some k) :
    ∃ m1, HandleConfirm m = .ok (m1, Cmd.nil) ∧ m1.State = State.Working := by
  have hsel : m.SessionCount.selected ≠ "" := by
    intro h0
    rw [h0, Atoi_empty] at hn
    cases hn
  rcases m with ⟨km, wd, bd, lbd, sc, ts, st, cws, tm, ti⟩
  simp only at hst hn hk hsel
  subst hst
  have hb : ¬ ((!sc.selected != "") = true) := by simp [hsel]
  simp only [HandleConfirm, HasSelectedSessionCount, calculateCurrentWorkSession, hn, hn0, hk,
    hb, if_false]
  exact ⟨_, rfl, rfl⟩

/-! ## StartStop -/

/-- C15: on a model with TimerInitialized = false HandleStartStop returns the model with
TimerInitialized = true, Stop enabled and Start disabled, together with the timer's
start command; on a model with TimerInitialized = true it returns the model unchanged
together with the timer's toggle command.  In both cases State, CurrentWorkSession,
totalSessions, the four ChoiceModels and the Timer are unchanged and the returned
TimerInitialized is true. -/
theorem startStop_spec (m : Model) :
    (m.TimerInitialized = false →
      HandleStartStop m =
        ({ m with TimerInitialized := true
                  KeyMap := { m.KeyMap with Stop := true, Start := false } },
          Cmd.timerInit m.Timer)) ∧
    (m.TimerInitialized = true → HandleStartStop m = (m, Cmd.timerToggle m.Timer)) ∧
    ((HandleStartStop m).1.State = m.State ∧
     (HandleStartStop m).1.CurrentWorkSession = m.CurrentWorkSession ∧
     (HandleStartStop m).1.totalSessions = m.totalSessions ∧
     (HandleStartStop m).1.WorkingDuration = m.WorkingDuration ∧
     (HandleStartStop m).1.BreakDuration = m.BreakDuration ∧
     (HandleStartStop m).1.LongBreakDuration = m.LongBreakDuration ∧
     (HandleStartStop m).1.SessionCount = m.SessionCount ∧
     (HandleStartStop m).1.Timer = m.Timer) ∧
    (HandleStartStop m).1.TimerInitialized = true := by
  rcases m with ⟨km, wd, bd, lbd, sc, ts, st, cws, tm, ti⟩
  cases ti <;> simp [HandleStartStop]

/-- Witness for C15: the first work session of the full-cycle scenario, not yet started. -/
theorem startStop_spec_witness :
    scenarioWorking.TimerInitialized = false ∧
    HandleStartStop scenarioWorking =
      ({ scenarioWorking with
         TimerInitialized := true
         KeyMap := { scenarioWorking.KeyMap with Stop := true, Start := false } },
        Cmd.timerInit scenarioWorking.Timer) :=
  ⟨by rfl, (startStop_spec scenarioWorking).1 (by rfl)⟩

/-! ## Startup -/

/-- C16 (as the code behaves, counterexample): with a store whose read fails,
`getTotalSessions` does set totalSessions to 0 but returns an error, and `New` ends the
program with `log.Fatal` instead of returning a model. -/
theorem new_fatal_on_read_failure :
    getTotalSessions (failingStore "Key not found") ⟨2024, 3, 7⟩ (initialModel 0)
      = (initialModel 0, some "unable to get value from DB: Key not found") ∧
    New none (failingStore "Key not found") ⟨2024, 3, 7⟩
      = .error (Fault.fatal "unable to get value from DB: Key not found") ∧
    ¬ ∃ m, New none (failingStore "Key not found") ⟨2024, 3, 7⟩ = .ok m := by
  refine ⟨by rfl, by rfl, ?_⟩
  rintro ⟨m, h⟩
  have h2 : New none (failingStore "Key not found") ⟨2024, 3, 7⟩
      = .error (Fault.fatal "unable to get value from DB: Key not found") := by rfl
  rw [h2] at h
  cases h

/-- C16 (amended): whenever the store read for today's key returns an error,
`getTotalSessions` sets totalSessions to 0 and returns that error wrapped, and `New`
(with the store opened) ends the program with `log.Fatal` on it: startup does not
continue. -/
theorem read_failure_is_fatal (db : String → Except String (Option String)) (now : Date)
    (m : Model) (e : String) (h : db (formatISO now) = .error e) :
    getTotalSessions db now m
      = ({ m with totalSessions := 0 }, some ("unable to get value from DB: " ++ e)) ∧
    New none db now = .error (Fault.fatal ("unable to get value from DB: " ++ e)) := by
  refine ⟨?_, ?_⟩
  · simp only [getTotalSessions, h]
  · simp only [New, getTotalSessions, h]

/-- Witness for C16: a store in which today's key is not found. -/
theorem read_failure_is_fatal_witness :
    failingStore "Key not found" (formatISO ⟨2024, 3, 7⟩) = .error "Key not found" ∧
    (getTotalSessions (failingStore "Key not found") ⟨2024, 3, 7⟩ scenarioBreak
      = ({ scenarioBreak with totalSessions := 0 },
         some ("unable to get value from DB: " ++ "Key not found")) ∧
     New none (failingStore "Key not found") ⟨2024, 3, 7⟩
      = .error (Fault.fatal ("unable to get value from DB: " ++ "Key not found"))) :=
  ⟨by rfl, read_failure_is_fatal (failingStore "Key not found") ⟨2024, 3, 7⟩ scenarioBreak
    "Key not found" (by rfl)⟩

/-! ## Failure on an unusable session count -/

/-- C17 (as the code behaves, counterexample): in `ChooseSessionCount` with no session
count selected (reached from the initial model by Enter, Confirm, Enter, Confirm,
Confirm) the selection "" does not parse and `calculateCurrentWorkSession` would
fail, yet HandleConfirm does not fail: it returns the model unchanged. -/
theorem confirm_no_failure_without_selection :
    run [Event.Enter, Event.Confirm, Event.Enter, Event.Confirm, Event.Confirm] (initialModel 0)
      = some sessionCountUnselected ∧
    sessionCountUnselected.State = State.ChooseSessionCount ∧
    Atoi sessionCountUnselected.SessionCount.selected = none ∧
    calculateCurrentWorkSession sessionCountUnselected
      = .error (Fault.fatal "unable to convert session count selection to int") ∧
    HandleConfirm sessionCountUnselected = .ok (sessionCountUnselected, Cmd.nil) := by
  refine ⟨by rfl, by rfl, by decide, by rfl, by rfl⟩

/-- The session count is unusable: the selection does not parse or parses to 0. -/
theorem calculateCurrentWorkSession_fails_iff (m : Model) :
    (∃ f, calculateCurrentWorkSession m = .error f) ↔
      (Atoi m.SessionCount.selected = none ∨ Atoi m.SessionCount.selected = some 0) := by
  unfold calculateCurrentWorkSession
  cases hA : Atoi m.SessionCount.selected with
  | none => simp
  | some n =>
    by_cases hn0 : n = 0
    · simp [hn0]
    · simp [hn0]

/-- With a usable session count the expiry handler fails exactly when the duration of
the phase it enters does not parse. -/
theorem timeout_fails_iff_of_parse (now : Date) (m : Model) (n : Int)
    (hA : Atoi m.SessionCount.selected = some n) (hn0 : n ≠ 0) :
    (∃ f, (HandleTimerTimeout now m).result = .error f) ↔
      ((m.State = State.Working ∧ Atoi m.BreakDuration.selected = none) ∨
       ((m.State = State.Break ∨ m.State = State.LongBreak) ∧
         Atoi m.WorkingDuration.selected = none)) := by
  have hne := tmod_ne_self m.totalSessions n hn0
  rcases m with ⟨km, wd, bd, lbd, sc, ts, st, cws, tm, ti⟩
  simp only at hA hne
  cases st <;>
    simp only [HandleTimerTimeout, calculateCurrentWorkSession, hA, hn0, hne, if_false,
      if_true, and_false, true_and, reduceCtorEq, and_self, false_and, false_or,
      or_false, or_true]
  case Working => cases hB : Atoi bd.selected <;> simp
  case Break => cases hB : Atoi wd.selected <;> simp
  case LongBreak => cases hB : Atoi wd.selected <;> simp
  all_goals simp

/-- C17 (amended): `calculateCurrentWorkSession` fails if and only if
SessionCount.selected does not parse as an integer or parses to 0.  HandleTimerTimeout
fails in all those cases, before any store write, and otherwise only when the duration
selection of the phase it enters does not parse; HandleConfirm in `ChooseSessionCount`
fails in those cases exactly when a session count is selected (with an empty selection
it returns the model unchanged), and otherwise only when the working duration does not
parse.  No handler continues with a default session count. -/
theorem session_count_failure (now : Date) (m : Model) :
    ((∃ f, calculateCurrentWorkSession m = .error f) ↔
      (Atoi m.SessionCount.selected = none ∨ Atoi m.SessionCount.selected = some 0)) ∧
    ((∃ f, (HandleTimerTimeout now m).result = .error f) ↔
      ((Atoi m.SessionCount.selected = none ∨ Atoi m.SessionCount.selected = some 0) ∨
       (m.State = State.Working ∧ Atoi m.BreakDuration.selected = none) ∨
       ((m.State = State.Break ∨ m.State = State.LongBreak) ∧
         Atoi m.WorkingDuration.selected = none))) ∧
    ((Atoi m.SessionCount.selected = none ∨ Atoi m.SessionCount.selected = some 0) →
      (HandleTimerTimeout now m).writes = []) ∧
    (m.State = State.ChooseSessionCount →
      ((∃ f, HandleConfirm m = .error f) ↔
        (m.SessionCount.selected ≠ "" ∧
         ((Atoi m.SessionCount.selected = none ∨ Atoi m.SessionCount.selected = some 0) ∨
          Atoi m.WorkingDuration.selected = none))) ∧
      (m.SessionCount.selected = "" → HandleConfirm m = .ok (m, Cmd.nil))) := by
  refine ⟨calculateCurrentWorkSession_fails_iff m, ?_, ?_, ?_⟩
  · cases hA : Atoi m.SessionCount.selected with
    | none => simp [HandleTimerTimeout, calculateCurrentWorkSession, hA]
    | some n =>
      by_cases hn0 : n = 0
      · simp [HandleTimerTimeout, calculateCurrentWorkSession, hA, hn0]
      · rw [timeout_fails_iff_of_parse now m n hA hn0]
        simp [hn0]
  · intro h
    rcases h with h | h <;>
      simp [HandleTimerTimeout, calculateCurrentWorkSession, h]
  · intro hst
    rcases m with ⟨km, wd, bd, lbd, sc, ts, st, cws, tm, ti⟩
    simp only at hst
    subst hst
    simp only [HandleConfirm, HasSelectedSessionCount, calculateCurrentWorkSession]
    by_cases hsel : sc.selected = ""
    · simp [hsel]
    · have hb : ¬ ((!sc.selected != "") = true) := by simp [hsel]
      simp only [hb, if_false, hsel, ne_eq, not_false_eq_true, true_and, false_implies,
        and_true]
      cases hA : Atoi sc.selected with
      | none => simp
      | some n =>
        by_cases hn0 : n = 0
        · simp [hn0]
        · cases hW : Atoi wd.selected <;> simp [hn0, hW]

/-- Witness for C17: in Working with the session count "0" the expiry handler fails
without a store write. -/
theorem session_count_failure_witness :
    Atoi zeroSessionCount.SessionCount.selected = some 0 ∧
    (∃ f, (HandleTimerTimeout ⟨2024, 3, 7⟩ zeroSessionCount).result = .error f) ∧
    (HandleTimerTimeout ⟨2024, 3, 7⟩ zeroSessionCount).writes = [] :=
  ⟨by decide,
   (session_count_failure ⟨2024, 3, 7⟩ zeroSessionCount).2.1.mpr (Or.inl (Or.inr (by decide))),
   (session_count_failure ⟨2024, 3, 7⟩ zeroSessionCount).2.2.1 (Or.inr (by decide))⟩

/-! ## Up, Down and Enter touch only the active ChoiceModel -/

/-- C18: HandleUp and HandleDown return the model with at most the cursor of the active
ChoiceModel changed, and a returning HandleEnter the model with at most the selection of
the active ChoiceModel changed; the other three ChoiceModels, State, CurrentWorkSession,
totalSessions, TimerInitialized, Timer and the key map are those of the input.  In
Working, Break and LongBreak the three handlers return the model unchanged, and in a
Choose phase with the active cursor in bounds HandleEnter returns. -/
theorem up_down_enter_touch_active_only (m : Model) :
    HandleUp m = (withActiveCursor m (CurrentCursor (HandleUp m).1), Cmd.nil) ∧
    HandleDown m = (withActiveCursor m (CurrentCursor (HandleDown m).1), Cmd.nil) ∧
    (∀ m1 c, HandleEnter m = .ok (m1, c) →
      c = Cmd.nil ∧ m1 = withActiveSelected m (CurrentSelectedChoice m1)) ∧
    (¬ IsChoosePhase m.State →
      HandleUp m = (m, Cmd.nil) ∧ HandleDown m = (m, Cmd.nil) ∧
      HandleEnter m = .ok (m, Cmd.nil)) ∧
    (IsChoosePhase m.State → 0 ≤ CurrentCursor m →
      CurrentCursor m < ((CurrentChoices m).length : Int) →
      ∃ m1, HandleEnter m = .ok (m1, Cmd.nil)) := by
  refine ⟨HandleUp_eq m, HandleDown_eq m, ?_, ?_, ?_⟩
  · intro m1 c h
    obtain ⟨h1, h2, _⟩ := HandleEnter_eq m m1 c h
    exact ⟨h1, h2⟩
  · intro hp
    rcases m with ⟨km, wd, bd, lbd, sc, ts, st, cws, tm, ti⟩
    cases st <;> simp [IsChoosePhase] at hp <;> simp [HandleUp, HandleDown, HandleEnter]
  · intro hp h0 h1
    obtain ⟨m1, h, _⟩ := HandleEnter_active m hp h0 h1
    exact ⟨m1, h⟩

/-- Witness for C18: Enter with "4" selected and the cursor on "5"; only the selection
of SessionCount changes. -/
theorem up_down_enter_touch_active_only_witness :
    HandleEnter sessionCountOnFive
      = .ok ({ sessionCountOnFive with
               SessionCount := { sessionCountOnFive.SessionCount with selected := "" } },
             Cmd.nil) ∧
    (Cmd.nil = Cmd.nil ∧
     ({ sessionCountOnFive with
        SessionCount := { sessionCountOnFive.SessionCount with selected := "" } } : Model)
       = withActiveSelected sessionCountOnFive
           (CurrentSelectedChoice
             ({ sessionCountOnFive with
                SessionCount := { sessionCountOnFive.SessionCount with selected := "" } } :
               Model))) :=
  ⟨by rfl, (up_down_enter_touch_active_only sessionCountOnFive).2.2.1 _ _ (by rfl)⟩

/-! ## LongBreak is never entered -/

/-- The absolute value of Go's remainder is below that of a non-zero divisor. -/
theorem natAbs_tmod_lt (t n : Int) (hn : n ≠ 0) : (Int.tmod t n).natAbs < n.natAbs := by
  rcases t with t | t <;> rcases n with n | n
  · have hpos : 0 < n := Nat.pos_of_ne_zero (fun h => hn (by simp [h]))
    simpa [Int.tmod] using Nat.mod_lt t hpos
  · simpa [Int.tmod] using Nat.mod_lt t (Nat.succ_pos n)
  · have hpos : 0 < n := Nat.pos_of_ne_zero (fun h => hn (by simp [h]))
    simpa [Int.tmod] using Nat.mod_lt (t + 1) hpos
  · simpa [Int.tmod] using Nat.mod_lt (t + 1) (Nat.succ_pos n)

/-- A returning expiry handler never hands back a model in LongBreak. -/
theorem timeout_never_longBreak (now : Date) (m m1 : Model) (c : Cmd)
    (hr : (HandleTimerTimeout now m).result = .ok (m1, c)) : m1.State ≠ State.LongBreak := by
  cases hA : Atoi m.SessionCount.selected with
  | none => simp [HandleTimerTimeout, calculateCurrentWorkSession, hA] at hr
  | some n =>
    have hn0 : n ≠ 0 := by
      intro h0
      simp [HandleTimerTimeout, calculateCurrentWorkSession, hA, h0] at hr
    have hne := tmod_ne_self m.totalSessions n hn0
    rcases m with ⟨km, wd, bd, lbd, sc, ts, st, cws, tm, ti⟩
    simp only at hA hne
    cases st <;>
      simp only [HandleTimerTimeout, calculateCurrentWorkSession, hA, hn0, hne,
        if_false, if_true, and_false, true_and, reduceCtorEq, and_self] at hr
    case Working =>
      split at hr
      · simp at hr
      · simp only [Except.ok.injEq, Prod.mk.injEq] at hr
        obtain ⟨rfl, _⟩ := hr
        simp
    case Break =>
      split at hr
      · simp at hr
      · simp only [Except.ok.injEq, Prod.mk.injEq] at hr
        obtain ⟨rfl, _⟩ := hr
        simp
    case LongBreak =>
      split at hr
      · simp at hr
      · simp only [Except.ok.injEq, Prod.mk.injEq] at hr
        obtain ⟨rfl, _⟩ := hr
        simp
    all_goals
      simp only [Except.ok.injEq, Prod.mk.injEq] at hr
      obtain ⟨rfl, _⟩ := hr
      simp

/-- A returning Confirm does not enter LongBreak. -/
theorem confirm_never_longBreak (m m1 : Model) (c : Cmd)
    (hm : m.State ≠ State.LongBreak) (hc : HandleConfirm m = .ok (m1, c)) :
    m1.State ≠ State.LongBreak := by
  rcases m with ⟨km, wd, bd, lbd, sc, ts, st, cws, tm, ti⟩
  cases st <;> simp only [HandleConfirm, disableTimerKeys] at hc
  case ChooseSessionCount =>
    split at hc
    · simp only [Except.ok.injEq, Prod.mk.injEq] at hc
      obtain ⟨rfl, _⟩ := hc
      simp
    · split at hc
      · simp at hc
      · rename_i mc n hcalc
        obtain ⟨_, _, rfl⟩ := calculateCurrentWorkSession_ok _ _ _ hcalc
        split at hc
        · simp at hc
        · simp only [Except.ok.injEq, Prod.mk.injEq] at hc
          obtain ⟨rfl, _⟩ := hc
          simp
  case LongBreak => exact absurd rfl hm
  all_goals
    (try split at hc) <;>
    simp only [Except.ok.injEq, Prod.mk.injEq] at hc <;>
    (obtain ⟨rfl, _⟩ := hc; simp)

/-- StartStop keeps the State. -/
theorem HandleStartStop_state (m : Model) : (HandleStartStop m).1.State = m.State := by
  simp only [HandleStartStop]
  split_ifs <;> rfl

/-- One event does not enter LongBreak. -/
theorem step_never_longBreak (e : Event) (m m1 : Model) (hm : m.State ≠ State.LongBreak)
    (hs : step e m = some m1) : m1.State ≠ State.LongBreak := by
  cases e <;> simp only [step] at hs
  case Up =>
    cases hs
    rw [HandleUp_eq]
    rcases m with ⟨km, wd, bd, lbd, sc, ts, st, cws, tm, ti⟩
    cases st <;> exact hm
  case Down =>
    cases hs
    rw [HandleDown_eq]
    rcases m with ⟨km, wd, bd, lbd, sc, ts, st, cws, tm, ti⟩
    cases st <;> exact hm
  case StartStop =>
    cases hs
    rw [(HandleStartStop_state m)]
    exact hm
  case Enter =>
    split at hs
    · rename_i m2 c he
      cases hs
      obtain ⟨_, heq, _⟩ := HandleEnter_eq m _ c he
      rw [heq]
      rcases m with ⟨km, wd, bd, lbd, sc, ts, st, cws, tm, ti⟩
      cases st <;> exact hm
    · cases hs
  case Confirm =>
    split at hs
    · rename_i m2 c hc
      cases hs
      exact confirm_never_longBreak m _ c hm hc
    · cases hs
  case TimerTimeout now =>
    split at hs
    · rename_i m2 c hr
      cases hs
      exact timeout_never_longBreak now m _ c hr
    · cases hs

/-- C19: for every input model whose SessionCount.selected parses to a non-zero integer
n, `calculateCurrentWorkSession` overwrites CurrentWorkSession with Go's remainder
totalSessions % n, whose absolute value is below |n| and which therefore differs from n,
and the model HandleTimerTimeout returns is never in LongBreak; the handler does return
whenever the duration it parses is an integer.  Hence no sequence of handler events
leads from the initial model to LongBreak. -/
theorem longBreak_never_entered (now : Date) (m : Model) (n : Int)
    (hn : Atoi m.SessionCount.selected = some n) (hn0 : n ≠ 0) :
    (calculateCurrentWorkSession m
        = .ok ({ m with CurrentWorkSession := Int.tmod m.totalSessions n }, n) ∧
      (Int.tmod m.totalSessions n).natAbs < n.natAbs ∧ Int.tmod m.totalSessions n ≠ n) ∧
    (∀ m1 c, (HandleTimerTimeout now m).result = .ok (m1, c) → m1.State ≠ State.LongBreak) ∧
    ((m.State = State.Working → ∀ k, Atoi m.BreakDuration.selected = some k →
        ∃ m1, (HandleTimerTimeout now m).result = .ok (m1, Cmd.nil) ∧ m1.State = State.Break) ∧
     (m.State = State.Break ∨ m.State = State.LongBreak →
        ∀ k, Atoi m.WorkingDuration.selected = some k →
        ∃ m1, (HandleTimerTimeout now m).result = .ok (m1, Cmd.nil) ∧
          m1.State = State.Working) ∧
     (IsChoosePhase m.State →
        ∃ m1, (HandleTimerTimeout now m).result = .ok (m1, Cmd.nil) ∧ m1.State = m.State)) ∧
    (∀ (t0 : Int) (es : List Event) (m2 : Model),
      run es (initialModel t0) = some m2 → m2.State ≠ State.LongBreak) := by
  refine ⟨⟨calculateCurrentWorkSession_eq m n hn hn0, natAbs_tmod_lt _ n hn0,
      tmod_ne_self _ n hn0⟩,
    fun m1 c hr => timeout_never_longBreak now m m1 c hr,
    timeout_returns now m n hn hn0, ?_⟩
  intro t0 es
  have key : ∀ (es : List Event) (a b : Model), a.State ≠ State.LongBreak →
      run es a = some b → b.State ≠ State.LongBreak := by
    intro es
    induction es with
    | nil =>
      intro a b ha hr
      simp only [run, Option.some.injEq] at hr
      rw [← hr]
      exact ha
    | cons e es ih =>
      intro a b ha hr
      simp only [run] at hr
      split at hr
      · rename_i a2 hs
        exact ih a2 b (step_never_longBreak e a a2 ha hs) hr
      · cases hr
  intro m2 hr
  exact key es (initialModel t0) m2 (by simp [initialModel]) hr

/-- Witness for C19: a model in Working that has reached the session index 4 of 4; the
expiry handler still leads to Break. -/
theorem longBreak_never_entered_witness :
    (Atoi ({ scenarioWorking with totalSessions := 4, CurrentWorkSession := 4 } :
        Model).SessionCount.selected = some 4 ∧ (4 : Int) ≠ 0) ∧
    (step (Event.TimerTimeout ⟨2024, 3, 7⟩)
        { scenarioWorking with totalSessions := 4, CurrentWorkSession := 4 }).map
        (fun m => (m.State, m.CurrentWorkSession)) = some (State.Break, 0) ∧
    ∀ m1 c, (HandleTimerTimeout ⟨2024, 3, 7⟩
        { scenarioWorking with totalSessions := 4, CurrentWorkSession := 4 }).result
          = .ok (m1, c) → m1.State ≠ State.LongBreak :=
  ⟨by decide, by rfl,
   (longBreak_never_entered ⟨2024, 3, 7⟩
      { scenarioWorking with totalSessions := 4, CurrentWorkSession := 4 } 4
      (by decide) (by decide)).2.1⟩

/-! ## The store write of a completed work session -/

/-- The digit loop over a concatenation runs over the first part, then the second. -/
theorem parseDigitsAux_append (xs ys : List Char) (acc : Nat) :
    parseDigitsAux (xs ++ ys) acc = (parseDigitsAux xs acc).bind (fun a => parseDigitsAux ys a) := by
  induction xs generalizing acc with
  | nil => simp [parseDigitsAux]
  | cons c cs ih =>
    simp only [List.cons_append, parseDigitsAux]
    cases digitValue c with
    | none => simp
    | some d => simp [ih]

/-- The character of a decimal digit has that digit as its value. -/
theorem digitValue_digitChar (d : Nat) (h : d < 10) : digitValue (Nat.digitChar d) = some d := by
  interval_cases d <;> rfl

/-- The digits `Nat.toDigitsCore` produces are put in front of its accumulator. -/
theorem toDigitsCore_append (fuel n : Nat) (ds : List Char) :
    Nat.toDigitsCore 10 fuel n ds = Nat.toDigitsCore 10 fuel n [] ++ ds := by
  induction fuel generalizing n ds with
  | zero => simp [Nat.toDigitsCore]
  | succ fuel ih =>
    simp only [Nat.toDigitsCore]
    split_ifs with h
    · simp
    · rw [ih (n / 10) (Nat.digitChar (n % 10) :: ds), ih (n / 10) [Nat.digitChar (n % 10)]]
      simp

/-- The digit loop reads the decimal digits of a number back as that number. -/
theorem parse_toDigitsCore (fuel n : Nat) (h : n < fuel) :
    parseDigitsAux (Nat.toDigitsCore 10 fuel n []) 0 = some n := by
  induction fuel generalizing n with
  | zero => omega
  | succ fuel ih =>
    have hd := digitValue_digitChar (n % 10) (Nat.mod_lt n (by decide))
    simp only [Nat.toDigitsCore]
    split_ifs with h0
    · simp only [parseDigitsAux, hd]
      congr 1
      omega
    · rw [toDigitsCore_append, parseDigitsAux_append, ih (n / 10) (by omega)]
      simp only [Option.some_bind, parseDigitsAux, hd]
      congr 1
      omega

/-- The digit loop reads `Nat.repr n` back as `n`. -/
theorem parseDigitsAux_repr (n : Nat) : parseDigitsAux (Nat.repr n).data 0 = some n := by
  simp only [Nat.repr, Nat.toDigits, List.asString]
  exact parse_toDigitsCore (n + 1) n (by omega)

/-- The decimal string of a number is not empty. -/
theorem repr_data_ne_nil (n : Nat) : (Nat.repr n).data ≠ [] := by
  simp only [Nat.repr, Nat.toDigits, List.asString, Nat.toDigitsCore]
  split_ifs with h
  · simp
  · rw [toDigitsCore_append]
    simp

/-- On a non-empty list `parseDigits` is the digit loop from 0. -/
theorem parseDigits_of_ne_nil (cs : List Char) (h : cs ≠ []) :
    parseDigits cs = parseDigitsAux cs 0 := by
  cases cs with
  | nil => exact absurd rfl h
  | cons c cs => rfl

/-- The decimal string of a number parses to that number. -/
theorem parseDigits_repr (n : Nat) : parseDigits (Nat.repr n).data = some n := by
  rw [parseDigits_of_ne_nil _ (repr_data_ne_nil n), parseDigitsAux_repr]


/-- A decimal digit is not a sign character. -/
theorem digit_ne_sign (c : Char) (d : Nat) (h : digitValue c = some d) : c ≠ '-' ∧ c ≠ '+' := by
  unfold digitValue at h
  split_ifs at h with hc
  constructor
  · rintro rfl
    revert hc
    decide
  · rintro rfl
    revert hc
    decide

/-- A list that parses as digits does not begin with a sign. -/
theorem parseDigits_head (c : Char) (cs : List Char) (n : Nat)
    (h : parseDigits (c :: cs) = some n) : c ≠ '-' ∧ c ≠ '+' := by
  simp only [parseDigits, parseDigitsAux] at h
  cases hd : digitValue c with
  | none => simp [hd] at h
  | some d => exact digit_ne_sign c d hd

/-- An unsigned run of digits within the 64-bit range is accepted by `Atoi`. -/
theorem Atoi_of_digits (s : String) (n : Nat) (h : parseDigits s.data = some n)
    (hn : (n : Int) ≤ maxInt64) : Atoi s = some (n : Int) := by
  unfold Atoi
  cases hs : s.data with
  | nil => rw [hs] at h; simp [parseDigits] at h
  | cons c cs =>
    rw [hs] at h
    obtain ⟨h1, h2⟩ := parseDigits_head c cs n h
    simp only [h1, h2, if_false, h, hn, if_true]

/-- The decimal string of a 64-bit integer parses back to that integer. -/
theorem Atoi_SprintfD (t : Int) (hlo : minInt64 ≤ t) (hhi : t ≤ maxInt64) :
    Atoi (SprintfD t) = some t := by
  unfold SprintfD
  split_ifs with hneg
  · have hp := parseDigits_repr t.natAbs
    have hb : ((t.natAbs : Nat) : Int) ≤ 9223372036854775808 := by
      unfold minInt64 at hlo
      omega
    have ht : -((t.natAbs : Nat) : Int) = t := by omega
    simp only [Atoi, String.data_append, String.data, List.cons_append, List.nil_append,
      if_true, hp, hb, ht]
  · have hp := parseDigits_repr t.natAbs
    have ht : ((t.natAbs : Nat) : Int) = t := by omega
    rw [Atoi_of_digits _ _ hp (by rw [ht]; exact hhi), ht]


/-- Leading zeros do not change the value the digit loop reads. -/
theorem parseDigitsAux_zeros (k : Nat) (xs : List Char) :
    parseDigitsAux (List.replicate k '0' ++ xs) 0 = parseDigitsAux xs 0 := by
  induction k with
  | zero => simp
  | succ k ih =>
    have h0 : digitValue '0' = some 0 := by decide
    simp only [List.replicate_succ, List.cons_append, parseDigitsAux, h0]
    exact ih

/-- The characters of a zero-padded number: the padding, then the decimal string. -/
theorem zeroPad_data (w n : Nat) :
    (zeroPad w n).data = List.replicate (w - (Nat.repr n).length) '0' ++ (Nat.repr n).data := by
  simp [zeroPad]

/-- A zero-padded number parses to that number. -/
theorem parseDigits_zeroPad (w n : Nat) : parseDigits (zeroPad w n).data = some n := by
  have hne : (zeroPad w n).data ≠ [] := by
    rw [zeroPad_data]
    simp [repr_data_ne_nil n]
  rw [parseDigits_of_ne_nil _ hne, zeroPad_data, parseDigitsAux_zeros, parseDigitsAux_repr]

/-- A number below `10 ^ w` padded to width `w` has exactly `w` characters. -/
theorem zeroPad_length (w n : Nat) (hw : 0 < w) (h : n < 10 ^ w) :
    (zeroPad w n).data.length = w := by
  have hl := Nat.repr_length n w hw h
  have e : (Nat.repr n).length = (Nat.repr n).data.length := rfl
  rw [zeroPad_data, e]
  rw [e] at hl
  simp only [List.length_append, List.length_replicate]
  omega

/-- The three fields of the ISO layout and the dashes between them. -/
theorem formatISO_shape (d : Date) :
    (formatISO d).data
      = (zeroPad 4 d.year).data ++ '-' :: ((zeroPad 2 d.month).data ++ '-' :: (zeroPad 2 d.day).data) := by
  simp [formatISO]

/-- Replacing the active selection keeps the State, the active cursor and the active
choices, makes the replacement the active selection in a Choose phase, and forgets an
earlier replacement. -/
theorem withActiveSelected_frame (m : Model) (a b : String) :
    (withActiveSelected m a).State = m.State ∧
    CurrentCursor (withActiveSelected m a) = CurrentCursor m ∧
    CurrentChoices (withActiveSelected m a) = CurrentChoices m ∧
    (IsChoosePhase m.State → CurrentSelectedChoice (withActiveSelected m a) = a) ∧
    withActiveSelected (withActiveSelected m a) b = withActiveSelected m b := by
  rcases m with ⟨km, wd, bd, lbd, sc, ts, st, cws, tm, ti⟩
  cases st <;> simp [withActiveSelected, CurrentCursor, CurrentChoices, CurrentSelectedChoice,
    IsChoosePhase]

/-- What one Enter makes of the active selection: from the empty selection the choice
under the cursor, from that choice the empty selection, and in every case one of the
two. -/
theorem HandleEnter_toggle (m : Model) (hp : IsChoosePhase m.State)
    (h0 : 0 ≤ CurrentCursor m) (h1 : CurrentCursor m < ((CurrentChoices m).length : Int)) :
    ∃ c, index (CurrentChoices m) (CurrentCursor m) = .ok c ∧ c ∈ CurrentChoices m ∧
      ∃ s, HandleEnter m = .ok (withActiveSelected m s, Cmd.nil) ∧ (s = c ∨ s = "") ∧
        (CurrentSelectedChoice m = "" → s = c) ∧
        (CurrentSelectedChoice m = c → c ≠ "" → s = "") := by
  rcases m with ⟨km, wd, bd, lbd, sc, ts, st, cws, tm, ti⟩
  cases st <;> simp only [IsChoosePhase, reduceCtorEq, or_self] at hp <;>
    simp only [CurrentCursor, CurrentChoices, CurrentSelectedChoice] at h0 h1 ⊢
  case ChooseWorkingDuration =>
    rcases wd with ⟨chs, cur, sel⟩
    simp only at h0 h1 ⊢
    obtain ⟨c, e, hmem⟩ := index_ok_of_inBounds chs cur h0 h1
    refine ⟨c, e, hmem, ?_⟩
    by_cases hs : sel = "" <;> by_cases hs2 : c = sel <;>
      simp [HandleEnter, e, hs, hs2, withActiveSelected] <;>
      (intro h; first | exact h.symm | exact absurd h.symm hs2)
  case ChooseBreakDuration =>
    rcases bd with ⟨chs, cur, sel⟩
    simp only at h0 h1 ⊢
    obtain ⟨c, e, hmem⟩ := index_ok_of_inBounds chs cur h0 h1
    refine ⟨c, e, hmem, ?_⟩
    by_cases hs : sel = "" <;> by_cases hs2 : c = sel <;>
      simp [HandleEnter, e, hs, hs2, withActiveSelected] <;>
      (intro h; first | exact h.symm | exact absurd h.symm hs2)
  case ChooseLongBreakDuration =>
    rcases lbd with ⟨chs, cur, sel⟩
    simp only at h0 h1 ⊢
    obtain ⟨c, e, hmem⟩ := index_ok_of_inBounds chs cur h0 h1
    refine ⟨c, e, hmem, ?_⟩
    by_cases hs : sel = "" <;> by_cases hs2 : c = sel <;>
      simp [HandleEnter, e, hs, hs2, withActiveSelected] <;>
      (intro h; first | exact h.symm | exact absurd h.symm hs2)
  case ChooseSessionCount =>
    rcases sc with ⟨chs, cur, sel⟩
    simp only at h0 h1 ⊢
    obtain ⟨c, e, hmem⟩ := index_ok_of_inBounds chs cur h0 h1
    refine ⟨c, e, hmem, ?_⟩
    by_cases hs : sel = "" <;> by_cases hs2 : c = sel <;>
      simp [HandleEnter, e, hs, hs2, withActiveSelected]
    intro h
    exact h.symm

/-- Enter on a model whose active selection is the choice under the cursor or empty
gives the other of the two. -/
theorem HandleEnter_flip (m : Model) (hp : IsChoosePhase m.State)
    (h0 : 0 ≤ CurrentCursor m) (h1 : CurrentCursor m < ((CurrentChoices m).length : Int))
    (c : String) (hidx : index (CurrentChoices m) (CurrentCursor m) = .ok c) (hc : c ≠ "")
    (a : String) (ha : a = c ∨ a = "") :
    HandleEnter (withActiveSelected m a)
      = .ok (withActiveSelected m (if a = "" then c else ""), Cmd.nil) := by
  obtain ⟨f1, f2, f3, f4, f5⟩ := withActiveSelected_frame m a (if a = "" then c else "")
  obtain ⟨c1, hidx1, _, s, he, _, hs1, hs2⟩ :=
    HandleEnter_toggle (withActiveSelected m a) (f1 ▸ hp) (f2 ▸ h0) (by rw [f2, f3]; exact h1)
  rw [f3, f2, hidx] at hidx1
  simp only [Except.ok.injEq] at hidx1
  subst hidx1
  rw [f4 hp] at hs1 hs2
  rw [he]
  rcases ha with ha | ha
  · have hs : s = "" := hs2 ha hc
    have hne : ¬ a = "" := by rw [ha]; exact hc
    rw [hs, if_neg hne, (withActiveSelected_frame m a "").2.2.2.2]
  · have hs : s = c := hs1 ha
    rw [hs, if_pos ha, (withActiveSelected_frame m a c).2.2.2.2]

/-- Repeated Enter from a model whose active selection is the choice under the cursor or
empty: the selection is the starting one after an even number of applications and the
other one after an odd number. -/
theorem enterTimes_flip (m : Model) (hp : IsChoosePhase m.State)
    (h0 : 0 ≤ CurrentCursor m) (h1 : CurrentCursor m < ((CurrentChoices m).length : Int))
    (c : String) (hidx : index (CurrentChoices m) (CurrentCursor m) = .ok c) (hc : c ≠ "")
    (k : Nat) (a : String) (ha : a = c ∨ a = "") :
    enterTimes k (withActiveSelected m a)
      = .ok (withActiveSelected m
          (if k % 2 = 0 then a else (if a = "" then c else ""))) := by
  induction k generalizing a with
  | zero => simp [enterTimes]
  | succ k ih =>
    simp only [enterTimes, HandleEnter_flip m hp h0 h1 c hidx hc a ha]
    have hb : (if a = "" then c else "") = c ∨ (if a = "" then c else "") = "" := by
      split_ifs
      · exact Or.inl rfl
      · exact Or.inr rfl
    rw [ih _ hb]
    have hback : (if (if a = "" then c else "") = "" then c else "") = a := by
      rcases ha with ha | ha
      · have hne : ¬ a = "" := by rw [ha]; exact hc
        simp [hne, ha]
      · simp [ha, hc]
    rw [hback]
    rcases Nat.mod_two_eq_zero_or_one k with hk | hk
    · have hk1 : (k + 1) % 2 = 1 := by omega
      simp [hk, hk1]
    · have hk1 : (k + 1) % 2 = 0 := by omega
      simp [hk, hk1]

/-- C8: in each Choose phase, with the active cursor in bounds over choices that contain
no empty string and whatever the starting selection, the first HandleEnter leaves the
active selection at the choice under the cursor or empty (at the choice when the
starting selection is empty), and every further HandleEnter switches between these two
different values: after an odd number of applications the model is the starting model
with the first of them as active selection, after an even number with the other.  Hence
three applications return the same model as one, from an empty selection two
applications return the starting model, and the results repeat with period 2. -/
theorem enter_three_times_is_once (m : Model) (hp : IsChoosePhase m.State)
    (h0 : 0 ≤ CurrentCursor m) (h1 : CurrentCursor m < ((CurrentChoices m).length : Int))
    (hne : "" ∉ CurrentChoices m) :
    (∃ c s1 s2, index (CurrentChoices m) (CurrentCursor m) = .ok c ∧ c ≠ "" ∧
      ((s1 = c ∧ s2 = "") ∨ (s1 = "" ∧ s2 = c)) ∧ s1 ≠ s2 ∧
      (CurrentSelectedChoice m = "" → s1 = c) ∧
      (∀ k, ∃ mk, enterTimes (k + 1) m = .ok mk ∧
        mk = withActiveSelected m (if k % 2 = 0 then s1 else s2) ∧
        CurrentSelectedChoice mk = (if k % 2 = 0 then s1 else s2))) ∧
    (∃ m1, enterTimes 1 m = .ok m1 ∧ enterTimes 3 m = .ok m1) ∧
    (CurrentSelectedChoice m = "" → enterTimes 2 m = .ok m) ∧
    (∀ k, enterTimes (k + 3) m = enterTimes (k + 1) m) := by
  obtain ⟨c, hidx, hmem, s1, he, hs1, hempty, _⟩ := HandleEnter_toggle m hp h0 h1
  have hc : c ≠ "" := fun hc0 => hne (hc0 ▸ hmem)
  have hall : ∀ k, enterTimes (k + 1) m
      = .ok (withActiveSelected m (if k % 2 = 0 then s1 else (if s1 = "" then c else ""))) := by
    intro k
    simp only [enterTimes, he]
    exact enterTimes_flip m hp h0 h1 c hidx hc k s1 hs1
  refine ⟨⟨c, s1, if s1 = "" then c else "", hidx, hc, ?_, ?_, hempty, ?_⟩, ?_, ?_, ?_⟩
  · rcases hs1 with h | h
    · have hn : ¬ s1 = "" := by rw [h]; exact hc
      exact Or.inl ⟨h, by simp [hn]⟩
    · exact Or.inr ⟨h, by simp [h]⟩
  · rcases hs1 with h | h
    · have hn : ¬ s1 = "" := by rw [h]; exact hc
      simp [hn]
    · simp only [h, if_true]
      exact fun h2 => hc h2.symm
  · intro k
    refine ⟨_, hall k, rfl, ?_⟩
    exact (withActiveSelected_frame m _ "").2.2.2.1 hp
  · exact ⟨_, hall 0, by rw [hall 2]⟩
  · intro hsel
    have h2 := hall 1
    have hs : s1 = c := hempty hsel
    have hn : ¬ s1 = "" := by rw [hs]; exact hc
    simp only [Nat.reduceAdd, Nat.one_mod, one_ne_zero, if_false, hn] at h2
    rw [h2]
    congr 1
    rcases m with ⟨km, wd, bd, lbd, sc, ts, st, cws, tm, ti⟩
    simp only [CurrentSelectedChoice] at hsel
    cases st <;> simp only [IsChoosePhase, reduceCtorEq, or_self, or_false, false_or] at hp <;>
      simp only [withActiveSelected] <;> simp only at hsel <;> rw [← hsel]
  · intro k
    rw [hall (k + 2), hall k]
    have hk : (k + 2) % 2 = k % 2 := by omega
    rw [hk]

/-- Witness for C8: "4" selected with the cursor on "5" in `ChooseSessionCount`; the
selections after one, two and three applications are "", "5" and "". -/
theorem enter_three_times_is_once_witness :
    (IsChoosePhase sessionCountOnFive.State ∧ 0 ≤ CurrentCursor sessionCountOnFive ∧
     CurrentCursor sessionCountOnFive < ((CurrentChoices sessionCountOnFive).length : Int) ∧
     "" ∉ CurrentChoices sessionCountOnFive) ∧
    ((enterTimes 1 sessionCountOnFive).map CurrentSelectedChoice = .ok "" ∧
     (enterTimes 2 sessionCountOnFive).map CurrentSelectedChoice = .ok "5" ∧
     (enterTimes 3 sessionCountOnFive).map CurrentSelectedChoice = .ok "") ∧
    ((∃ c s1 s2,
        index (CurrentChoices sessionCountOnFive) (CurrentCursor sessionCountOnFive) = .ok c ∧
        c ≠ "" ∧ ((s1 = c ∧ s2 = "") ∨ (s1 = "" ∧ s2 = c)) ∧ s1 ≠ s2 ∧
        (CurrentSelectedChoice sessionCountOnFive = "" → s1 = c) ∧
        (∀ k, ∃ mk, enterTimes (k + 1) sessionCountOnFive = .ok mk ∧
          mk = withActiveSelected sessionCountOnFive (if k % 2 = 0 then s1 else s2) ∧
          CurrentSelectedChoice mk = (if k % 2 = 0 then s1 else s2))) ∧
     (∃ m1, enterTimes 1 sessionCountOnFive = .ok m1 ∧ enterTimes 3 sessionCountOnFive = .ok m1) ∧
     (CurrentSelectedChoice sessionCountOnFive = "" →
        enterTimes 2 sessionCountOnFive = .ok sessionCountOnFive) ∧
     (∀ k, enterTimes (k + 3) sessionCountOnFive = enterTimes (k + 1) sessionCountOnFive)) :=
  ⟨by decide, ⟨by rfl, by rfl, by rfl⟩,
   enter_three_times_is_once sessionCountOnFive (by decide) (by decide) (by decide) (by decide)⟩

/-! ## The countdown of the phase entered, in minutes -/

/-- What `TimerFromSelection` holds, spelled out. -/
theorem TimerFromSelection_exact (m : Model) (h : TimerFromSelection m) :
    ∃ sel k, phaseSelection m m.State = some sel ∧ Atoi sel = some k ∧
      m.Timer.Interval = Second ∧ m.Timer.Timeout = wrapInt64 (k * Minute) ∧
      (-153722867 ≤ k → k ≤ 153722867 → m.Timer.Timeout = k * Minute) := by
  obtain ⟨sel, k, h1, h2, h3, h4, h5⟩ := h
  refine ⟨sel, k, h1, h2, h4, by rw [h3]; rfl, ?_⟩
  intro hlo hhi
  exact h5 (by unfold minInt64 Minute; omega) (by unfold maxInt64 Minute; omega)

end Pomotui
